import Mathlib

/-!
Verification of the storage-drift detection pipeline and scanning
orchestration of the Rust_Marathon repository.

Shallow embedding conventions:
* `H256` / `U256` / `Address` values are natural numbers (`ℕ`); an address
  obtained from a 32-byte topic keeps its low 160 bits (`% 2^160`), exactly
  as `Address::from(H256)` does.
* `f64` quantities computed by the code (impact scores, confidences,
  prediction arithmetic) are modelled as exact rationals (`ℚ`); the drift
  score and volatility, which involve a square root, live in `ℝ`.
* `U256::as_u128`, which panics when the value does not fit in 128 bits, is
  modelled by returning `none`; functions whose Rust bodies can panic
  therefore return `Option`.
* The per-slot cache (`SimpleStateCache.slot_values`, a lock-protected
  `HashMap<(Address, SlotKey), Vec<H256>>`) is modelled extensionally as a
  total function from keys to the stored vector, with the empty list for
  absent keys (`get_slot_history` returns `unwrap_or_default`, and
  `get_latest_value` of an absent or empty vector is `none`, so the two
  representations agree on every observable operation).
* `Instant` timestamps are naturals; `last.elapsed()` at time `now` is
  `now - last` (truncated subtraction; the scanner only ever compares a
  later `now` against an earlier `last`).
-/

namespace RustMarathon

/-- `SlotKey` from `storage_drift.rs`: a raw slot hash, an ERC-20 balance
mapping entry, or a named reserve slot index. -/
inductive SlotKey where
  | Custom (h : ℕ)
  | BalanceOf (a : ℕ)
  | Reserves (slot : ℕ)
  deriving DecidableEq, Repr

/-- `StorageChangeType` from `storage_drift.rs`. -/
inductive StorageChangeType where
  | DirectWrite
  | MappingUpdate
  | ArrayPush
  | StructUpdate
  | FlashLoan
  | Arbitrage
  | ReentrancyGuard
  deriving DecidableEq, Repr

/-- `StorageDelta` from `storage_drift.rs`; `impact_score` and `confidence`
are the Rust `f64` fields, modelled as exact rationals. -/
structure StorageDelta where
  slot_key : SlotKey
  old_value : ℕ
  new_value : ℕ
  change_type : StorageChangeType
  impact_score : ℚ
  confidence : ℚ
  block_number : ℕ
  contract : ℕ
  deriving DecidableEq, Repr

/-- `SlotDriftEvent` from `storage_drift.rs`. `confidence` is set to the
drift score, which is a real number in this embedding. `timestamp` models
`Utc::now()` as an externally supplied natural. -/
structure SlotDriftEvent where
  chain : String
  contract : ℕ
  slot_key : SlotKey
  current_value : ℕ
  predicted_value : ℕ
  current_block : ℕ
  predicted_block : ℕ
  timestamp : ℕ
  confidence : ℝ

/-- An event log as consumed by the decoders: `topics` are 32-byte words,
`data` is a byte string. -/
structure EthLog where
  topics : List ℕ
  data : List ℕ

/-- The state of `SimpleStateCache.slot_values`. -/
abbrev Cache := (ℕ × SlotKey) → List ℕ

/-- A fresh `SimpleStateCache::new()`. -/
def emptyCache : Cache := fun _ => []

/-- `SimpleStateCache::store_slot_value`: push the value onto the per-key
vector, then keep only the last 100 entries (`drain(0..len-100)`). -/
def store_slot_value (cache : Cache) (contract : ℕ) (slot : SlotKey) (value : ℕ) : Cache :=
  fun k =>
    if k = (contract, slot) then
      let values := cache (contract, slot) ++ [value]
      if 100 < values.length then values.drop (values.length - 100) else values
    else cache k

/-- `SimpleStateCache::get_slot_history` (`unwrap_or_default`). -/
def get_slot_history (cache : Cache) (contract : ℕ) (slot : SlotKey) : List ℕ :=
  cache (contract, slot)

/-- `SimpleStateCache::get_latest_value` (`?.last().cloned()`). -/
def get_latest_value (cache : Cache) (contract : ℕ) (slot : SlotKey) : Option ℕ :=
  (cache (contract, slot)).getLast?

/-- A sequence of `store_slot_value` calls on one key, oldest first. -/
def store_many (cache : Cache) (contract : ℕ) (slot : SlotKey) (values : List ℕ) : Cache :=
  values.foldl (fun m v => store_slot_value m contract slot v) cache

/-- `U256::from_big_endian` over a byte slice. -/
def from_big_endian (bytes : List ℕ) : ℕ :=
  bytes.foldl (fun acc b => acc * 256 + b) 0

/-- `StorageDriftDetector::calculate_balance_impact`.  The Rust body is
`if old_balance.is_zero() { return 1.0 }` followed by
`transfer_amount.as_u128() as f64 / old_balance.as_u128() as f64` capped at
1.0; `as_u128` panics when the value exceeds 128 bits, which is modelled by
`none`. -/
def calculate_balance_impact (transfer_amount old_balance : ℕ) : Option ℚ :=
  if old_balance = 0 then some 1
  else if 2 ^ 128 ≤ transfer_amount ∨ 2 ^ 128 ≤ old_balance then none
  else some (min ((transfer_amount : ℚ) / (old_balance : ℚ)) 1)

/-- `StorageDriftDetector::calculate_reserve_impact`: absolute reserve
change over the old reserve, doubled, capped at 1.0; 1.0 when the old
reserve is zero; `as_u128` panics modelled by `none`. -/
def calculate_reserve_impact (old_reserve new_reserve : ℕ) : Option ℚ :=
  if old_reserve = 0 then some 1
  else
    let change := if old_reserve < new_reserve then new_reserve - old_reserve
      else old_reserve - new_reserve
    if 2 ^ 128 ≤ change ∨ 2 ^ 128 ≤ old_reserve then none
    else some (min ((change : ℚ) / (old_reserve : ℚ) * 2) 1)

/-- `StorageDriftDetector::handle_transfer_event`.  Requires at least three
topics and 32 data bytes; decodes `from`/`to` from topics 1 and 2 (an
address keeps the low 160 bits of the 32-byte word) and the amount from the
first 32 data bytes.  For each endpoint that is not the zero address and
has a cached latest balance, emits a `MappingUpdate` delta: the sender
balance is `saturating_sub` (truncated `ℕ` subtraction), the receiver
balance `saturating_add` (capped at `U256::MAX`); no cached balance means
no delta.  `none` models a panic inside the impact computation. -/
def handle_transfer_event (log : EthLog) (cache : Cache) (block_number contract : ℕ) :
    Option (List StorageDelta) :=
  if 3 ≤ log.topics.length ∧ 32 ≤ log.data.length then
    let from_addr := (log.topics.getD 1 0) % 2 ^ 160
    let to_addr := (log.topics.getD 2 0) % 2 ^ 160
    let amount := from_big_endian (log.data.take 32)
    let sender_deltas : Option (List StorageDelta) :=
      if from_addr ≠ 0 then
        match get_latest_value cache contract (SlotKey.BalanceOf from_addr) with
        | some old_balance =>
            (calculate_balance_impact amount old_balance).map fun impact =>
              [{ slot_key := SlotKey.BalanceOf from_addr
                 old_value := old_balance
                 new_value := old_balance - amount
                 change_type := StorageChangeType.MappingUpdate
                 impact_score := impact
                 confidence := 0.95
                 block_number := block_number
                 contract := contract }]
        | none => some []
      else some []
    let receiver_deltas : Option (List StorageDelta) :=
      if to_addr ≠ 0 then
        match get_latest_value cache contract (SlotKey.BalanceOf to_addr) with
        | some old_balance =>
            (calculate_balance_impact amount old_balance).map fun impact =>
              [{ slot_key := SlotKey.BalanceOf to_addr
                 old_value := old_balance
                 new_value := min (old_balance + amount) (2 ^ 256 - 1)
                 change_type := StorageChangeType.MappingUpdate
                 impact_score := impact
                 confidence := 0.95
                 block_number := block_number
                 contract := contract }]
        | none => some []
      else some []
    match sender_deltas, receiver_deltas with
    | some s, some r => some (s ++ r)
    | _, _ => none
  else some []

/-- `StorageDriftDetector::sync_event`.  Requires 64 data bytes; decodes
the two reserves; for each of slots 8 and 9 with a cached latest value,
emits a `DirectWrite` delta with confidence 0.99 only when the logged
reserve differs from the cached one.  `none` models a panic inside the
impact computation. -/
def sync_event (log : EthLog) (cache : Cache) (block_number contract : ℕ) :
    Option (List StorageDelta) :=
  if 64 ≤ log.data.length then
    let reserve0 := from_big_endian (log.data.take 32)
    let reserve1 := from_big_endian ((log.data.drop 32).take 32)
    let slot8 : Option (List StorageDelta) :=
      match get_latest_value cache contract (SlotKey.Reserves 8) with
      | some old_reserve =>
          if old_reserve ≠ reserve0 then
            (calculate_reserve_impact old_reserve reserve0).map fun impact =>
              [{ slot_key := SlotKey.Reserves 8
                 old_value := old_reserve
                 new_value := reserve0
                 change_type := StorageChangeType.DirectWrite
                 impact_score := impact
                 confidence := 0.99
                 block_number := block_number
                 contract := contract }]
          else some []
      | none => some []
    let slot9 : Option (List StorageDelta) :=
      match get_latest_value cache contract (SlotKey.Reserves 9) with
      | some old_reserve =>
          if old_reserve ≠ reserve1 then
            (calculate_reserve_impact old_reserve reserve1).map fun impact =>
              [{ slot_key := SlotKey.Reserves 9
                 old_value := old_reserve
                 new_value := reserve1
                 change_type := StorageChangeType.DirectWrite
                 impact_score := impact
                 confidence := 0.99
                 block_number := block_number
                 contract := contract }]
          else some []
      | none => some []
    match slot8, slot9 with
    | some a, some b => some (a ++ b)
    | _, _ => none
  else some []

/-- `StorageDriftDetector::calculate_volatility`: coefficient of variation
of the history, read through `H256::low_u64` (hence `% 2^64`); 0 for fewer
than two values; the denominator is the mean floored at 1. -/
noncomputable def calculate_volatility (values : List ℕ) : ℝ :=
  if values.length < 2 then 0
  else
    let numeric_values : List ℝ := values.map fun h => ((h % 2 ^ 64 : ℕ) : ℝ)
    let mean : ℝ := numeric_values.sum / (numeric_values.length : ℝ)
    let variance : ℝ :=
      (numeric_values.map fun x => (x - mean) ^ 2).sum / (numeric_values.length : ℝ)
    Real.sqrt variance / max mean 1

/-- `StorageDriftDetector::calculate_drift_score`: 0 for an empty group,
otherwise 0.3 for more than three changes, plus 0.4 times the average
impact, plus 0.3 times the volatility when more than ten history entries
are cached, capped at 1.0 (`score.min(1.0)`). -/
noncomputable def calculate_drift_score (changes : List StorageDelta) (history : List ℕ) : ℝ :=
  if changes.isEmpty then 0
  else
    let score : ℝ := 0
    let score := if 3 < changes.length then score + 0.3 else score
    let avg_impact : ℝ := ((changes.map fun c => (c.impact_score : ℝ)).sum) / changes.length
    let score := score + avg_impact * 0.4
    let score := if 10 < history.length then score + calculate_volatility history * 0.3 else score
    min score 1

/-- Mean of a delta group's impact scores, as a real number. -/
noncomputable def mean_impact (changes : List StorageDelta) : ℝ :=
  ((changes.map fun c => (c.impact_score : ℝ)).sum) / changes.length

/-- The volatility formula exactly as the specification words it:
the standard deviation of the history divided by its mean floored at 1
(coefficient of variation). -/
noncomputable def spec_volatility (values : List ℝ) : ℝ :=
  Real.sqrt ((values.map fun x => (x - values.sum / values.length) ^ 2).sum / values.length) /
    max (values.sum / values.length) 1

/-- The drift-score formula exactly as the specification words it:
`score = 0.3·[count>3] + 0.4·mean(impact) + 0.3·volatility`, volatility
contributing only when the history holds more than 10 observations,
clamped to [0,1]. -/
noncomputable def spec_drift_score (count : ℕ) (mean volatility : ℝ) (history_len : ℕ) : ℝ :=
  min ((if 3 < count then (0.3 : ℝ) else 0) + 0.4 * mean +
    (if 10 < history_len then 0.3 * volatility else 0)) 1

/-- The history values read as real numbers, for stating the
specification's volatility formula. -/
noncomputable def real_values (values : List ℕ) : List ℝ := values.map (Nat.cast : ℕ → ℝ)

/-- A Rust `expr as u64` cast from `f64`: saturates below at 0 and above at
`u64::MAX`, truncating toward zero. -/
def f64_as_u64 (x : ℚ) : ℕ :=
  if x < 0 then 0 else min (Int.toNat ⌊x⌋) (2 ^ 64 - 1)

/-- `StorageDriftDetector::predict_future_value`: with fewer than 3 cached
observations return the latest (or zero); otherwise linear extrapolation
over the (reversed) last 10 observations read through `low_u64`:
`predicted = recent[0] + (recent[0] - recent[len-1]) * 0.1`, clamped below
at 0 and cast to `u64`. -/
def predict_future_value (cache : Cache) (contract : ℕ) (slot_key : SlotKey) : ℕ :=
  let history := get_slot_history cache contract slot_key
  if history.length < 3 then (history.getLast?).getD 0
  else
    let recent : List ℚ := (history.reverse.take 10).map fun h => ((h % 2 ^ 64 : ℕ) : ℚ)
    if recent.length < 2 then f64_as_u64 (recent.getD 0 0)
    else
      let trend := recent.getD 0 0 - recent.getD (recent.length - 1) 0
      let predicted := recent.getD 0 0 + trend * 0.1
      f64_as_u64 (max predicted 0)

/-- The prediction formula exactly as the specification words it:
`latest + (latest - oldest_of_last_10) * 0.1` over the last 10 cached
observations (oldest first; the last entry of the window is the latest). -/
def spec_prediction (history : List ℕ) : ℚ :=
  let last10 := history.drop (history.length - 10)
  let latest : ℚ := (last10.getD (last10.length - 1) 0 : ℕ)
  let oldest : ℚ := (last10.getD 0 0 : ℕ)
  latest + (latest - oldest) * 0.1

/-- The `(contract, slot_key)` grouping key used by `detect_drift_events`. -/
def key_of (d : StorageDelta) : ℕ × SlotKey := (d.contract, d.slot_key)

/-- `StorageDriftDetector::detect_drift_events`: group the block's deltas
by `(contract, slot_key)`; for each group whose drift score exceeds the
anomaly threshold, emit one `SlotDriftEvent` carrying the last change's new
value, the predicted value, `predicted_block = block + 10` and
`confidence = score`.  `now` models `Utc::now()`. -/
noncomputable def detect_drift_events (deltas : List StorageDelta) (block_number : ℕ)
    (cache : Cache) (now : ℕ) (anomaly_threshold : ℝ) : List SlotDriftEvent :=
  ((deltas.map key_of).dedup).filterMap fun k =>
    let changes := deltas.filter fun d => key_of d = k
    let drift_score := calculate_drift_score changes (get_slot_history cache k.1 k.2)
    if anomaly_threshold < drift_score then
      some { chain := "ethereum"
             contract := k.1
             slot_key := k.2
             current_value := ((changes.getLast?).map StorageDelta.new_value).getD 0
             predicted_value := predict_future_value cache k.1 k.2
             current_block := block_number
             predicted_block := block_number + 10
             timestamp := now
             confidence := drift_score }
    else none

/-- The `drift_history: BTreeMap<u64, Vec<SlotDriftEvent>>` of the
detector, modelled as an association list with unique keys. -/
abbrev DriftHistory := List (ℕ × List SlotDriftEvent)

/-- `BTreeMap::insert`: replace the entry for the key or add a new one. -/
def insert_block (history : DriftHistory) (block_number : ℕ) (events : List SlotDriftEvent) :
    DriftHistory :=
  if history.any fun p => p.1 = block_number then
    history.map fun p => if p.1 = block_number then (block_number, events) else p
  else history ++ [(block_number, events)]

/-- `StorageDriftDetector::store_drift_events`: insert the block's events,
then, only when more than 1000 entries are retained, drop every entry whose
key is at or below `block_number - 1000` (`retain(|&k, _| k > cutoff)` with
a saturating cutoff). -/
def store_drift_events (history : DriftHistory) (block_number : ℕ)
    (events : List SlotDriftEvent) : DriftHistory :=
  let history := insert_block history block_number events
  if 1000 < history.length then history.filter fun p => block_number - 1000 < p.1
  else history

/-- `CircuitBreaker` from `circuit_breaker.rs`; `Instant`s are naturals. -/
structure CircuitBreaker where
  error_count : ℕ
  circuit_breaker_threshold : ℕ
  cool_down : ℕ
  last_tripped : Option ℕ
  auto_reset : Bool
  deriving DecidableEq, Repr

/-- `CircuitBreaker::new`. -/
def CircuitBreaker.new (max_errors cool_down : ℕ) (auto_reset : Bool) : CircuitBreaker :=
  { error_count := 0
    circuit_breaker_threshold := max_errors
    cool_down := cool_down
    last_tripped := none
    auto_reset := auto_reset }

/-- `CircuitBreaker::trip` at time `now`: increment the counter; once the
new count is at or above the threshold, record `now` as the trip time. -/
def CircuitBreaker.trip (cb : CircuitBreaker) (now : ℕ) : CircuitBreaker :=
  let new_count := cb.error_count + 1
  { cb with
    error_count := new_count
    last_tripped :=
      if cb.circuit_breaker_threshold ≤ new_count then some now else cb.last_tripped }

/-- `CircuitBreaker::reset`: zero the counter, clear the trip time. -/
def CircuitBreaker.reset (cb : CircuitBreaker) : CircuitBreaker :=
  { cb with error_count := 0, last_tripped := none }

/-- `CircuitBreaker::is_tripped` at time `now`; returns the answer and the
possibly auto-reset state. -/
def CircuitBreaker.is_tripped (cb : CircuitBreaker) (now : ℕ) : Bool × CircuitBreaker :=
  if cb.error_count < cb.circuit_breaker_threshold then (false, cb)
  else
    match cb.last_tripped with
    | some last =>
        if now - last < cb.cool_down then (true, cb)
        else if cb.auto_reset then (false, cb.reset)
        else (true, cb)
    | none => (false, cb)

/-- One call against the breaker, for interleaving statements. -/
inductive BreakerOp where
  | trip (now : ℕ)
  | is_tripped (now : ℕ)
  | reset

/-- Applying a breaker call to a state. -/
def BreakerOp.apply (op : BreakerOp) (cb : CircuitBreaker) : CircuitBreaker :=
  match op with
  | .trip now => cb.trip now
  | .is_tripped now => (cb.is_tripped now).2
  | .reset => cb.reset

/-- A sequence of `trip` calls at the given times, oldest first. -/
def trip_many (cb : CircuitBreaker) (times : List ℕ) : CircuitBreaker :=
  times.foldl CircuitBreaker.trip cb

/-- `MAX_CONSECUTIVE_ERRORS` from `scanner/core.rs`. -/
def MAX_CONSECUTIVE_ERRORS : ℕ := 3

/-- The `ConnectionState` of `MevScanner` (`last_success` is not needed by
the properties settled here). `ws_connected = true` is the `WsLive` state of
the specification's state machine, `ws_connected = false` the
`HttpFallback` state (`run_cycle` polls over HTTP exactly when
`ws_connected` is false). -/
structure ConnState where
  ws_connected : Bool
  consecutive_errors : ℕ
  reconnect_attempts : ℕ
  deriving DecidableEq, Repr

/-- `MevScanner::handle_connection_error`: bump the consecutive-error
counter; at `MAX_CONSECUTIVE_ERRORS` or more, mark the push transport
disconnected. -/
def handle_connection_error (s : ConnState) : ConnState :=
  let errors := s.consecutive_errors + 1
  { s with
    consecutive_errors := errors
    ws_connected := if MAX_CONSECUTIVE_ERRORS ≤ errors then false else s.ws_connected }

/-- `MevScanner::try_reconnect_ws`: return without attempting when already
connected or when `reconnect_attempts > 5`; otherwise increment the attempt
counter and try to connect (`connect_ok` is the outcome of the network
call); on success set `ws_connected`, zero both counters.  The second
component records whether a connection attempt was made. -/
def try_reconnect_ws (s : ConnState) (connect_ok : Bool) : ConnState × Bool :=
  if s.ws_connected = true ∨ 5 < s.reconnect_attempts then (s, false)
  else if connect_ok then
    ({ ws_connected := true, consecutive_errors := 0, reconnect_attempts := 0 }, true)
  else ({ s with reconnect_attempts := s.reconnect_attempts + 1 }, true)

/-- The number of connection attempts made by `n` consecutive failing
`try_reconnect_ws` calls from state `s`. -/
def count_failed_reconnects (s : ConnState) : ℕ → ℕ
  | 0 => 0
  | n + 1 =>
      let r := try_reconnect_ws s false
      (if r.2 then 1 else 0) + count_failed_reconnects r.1 n

/-- Fixture: a cache holding balance 10 for address 5 (and nothing else). -/
def transferCache : Cache := fun k => if k = (1, SlotKey.BalanceOf 5) then [10] else []

/-- Fixture: 32 data bytes encoding the transfer amount 4. -/
def transferData : List ℕ := List.replicate 31 0 ++ [4]

/-- Fixture: a cache holding reserve 5 in slot 8 and reserve 3 in slot 9. -/
def syncCache : Cache := fun k =>
  if k = (1, SlotKey.Reserves 8) then [5]
  else if k = (1, SlotKey.Reserves 9) then [3] else []

/-- Fixture: 64 data bytes encoding reserves (5, 7). -/
def syncData : List ℕ := (List.replicate 31 0 ++ [5]) ++ (List.replicate 31 0 ++ [7])

/-- Fixture: a cache holding balance 0 for address 5 (and nothing else). -/
def zeroBalanceCache : Cache := fun k => if k = (1, SlotKey.BalanceOf 5) then [0] else []

/-- Fixture: a drift-event history holding 1001 blocks (0 through 1000). -/
def bigHistory : DriftHistory := (List.range 1001).map fun i => (i, [])

/-- Fixture: a maximal-impact reserve delta, repeated to form a burst. -/
def burstDelta : StorageDelta :=
  { slot_key := SlotKey.Reserves 8
    old_value := 2
    new_value := 2
    change_type := StorageChangeType.DirectWrite
    impact_score := 1
    confidence := 98/100
    block_number := 50
    contract := 1 }

/-- Fixture: four identical maximal-impact deltas for one slot. -/
def burstDeltas : List StorageDelta := [burstDelta, burstDelta, burstDelta, burstDelta]

/-- Fixture: a volatile slot-8 history whose raw values exceed 64 bits;
their low 64 bits are six 0s followed by six 2s. -/
def wrapHistoryList : List ℕ :=
  [2 ^ 64, 2 ^ 64, 2 ^ 64, 2 ^ 64, 2 ^ 64, 2 ^ 64,
    2 ^ 64 + 2, 2 ^ 64 + 2, 2 ^ 64 + 2, 2 ^ 64 + 2, 2 ^ 64 + 2, 2 ^ 64 + 2]

/-- Fixture: a cache whose slot-8 history is `wrapHistoryList`. -/
def wrapCache : Cache := fun k =>
  if k = (1, SlotKey.Reserves 8) then wrapHistoryList else []

/-- Fixture: a 12-entry history of six 0s and six `2^64`s — every value
wraps to 0 under `low_u64`, while the raw values vary. -/
def flatWrapHistory : List ℕ :=
  [0, 0, 0, 0, 0, 0, 2 ^ 64, 2 ^ 64, 2 ^ 64, 2 ^ 64, 2 ^ 64, 2 ^ 64]

/-- Fixture: a single storage delta with impact score 0. -/
def zeroImpactDelta : StorageDelta :=
  { slot_key := SlotKey.Custom 0
    old_value := 0
    new_value := 0
    change_type := StorageChangeType.DirectWrite
    impact_score := 0
    confidence := 95/100
    block_number := 1
    contract := 1 }

/-- Fixture: a single storage delta with impact score 1/2. -/
def halfImpactDelta : StorageDelta :=
  { slot_key := SlotKey.Custom 0
    old_value := 0
    new_value := 0
    change_type := StorageChangeType.DirectWrite
    impact_score := 1/2
    confidence := 95/100
    block_number := 1
    contract := 1 }

end RustMarathon

namespace RustMarathon

lemma store_slot_value_apply (cache : Cache) (c : ℕ) (s : SlotKey) (v : ℕ) :
    store_slot_value cache c s v (c, s) =
      (cache (c, s) ++ [v]).drop ((cache (c, s) ++ [v]).length - 100) := by
  have hbody : store_slot_value cache c s v (c, s) =
      (if 100 < (cache (c, s) ++ [v]).length then
        (cache (c, s) ++ [v]).drop ((cache (c, s) ++ [v]).length - 100)
      else (cache (c, s) ++ [v])) := by
    simp [store_slot_value]
  rw [hbody]
  by_cases h : 100 < (cache (c, s) ++ [v]).length
  · rw [if_pos h]
  · rw [if_neg h]
    have h0 : (cache (c, s) ++ [v]).length - 100 = 0 := by omega
    rw [h0, List.drop_zero]

lemma drop_keep_last_append (a : List ℕ) (v : ℕ) :
    ((a.drop (a.length - 100)) ++ [v]).drop ((a.drop (a.length - 100)).length + 1 - 100) =
      (a ++ [v]).drop (a.length + 1 - 100) := by
  rcases Nat.lt_or_ge a.length 100 with h | h
  · have h0 : a.length - 100 = 0 := by omega
    have h1 : a.length + 1 - 100 = 0 := by omega
    rw [h0, List.drop_zero, h1, List.drop_zero]
  · have hlen : (a.drop (a.length - 100)).length = 100 := by
      rw [List.length_drop]; omega
    rw [hlen]
    have h1 : (100 : ℕ) + 1 - 100 = 1 := by norm_num
    rw [h1]
    rw [List.drop_append_eq_append_drop, List.drop_append_eq_append_drop, hlen]
    have h3 : (1 : ℕ) - 100 = 0 := by norm_num
    have h4 : a.length + 1 - 100 - a.length = 0 := by omega
    rw [h3, h4, List.drop_zero, List.drop_drop]
    have h5 : a.length - 100 + 1 = a.length + 1 - 100 := by omega
    rw [h5]

lemma store_many_apply (c : ℕ) (s : SlotKey) (vs : List ℕ) :
    ∀ cache : Cache, (cache (c, s)).length ≤ 100 →
      store_many cache c s vs (c, s) =
        (cache (c, s) ++ vs).drop ((cache (c, s)).length + vs.length - 100) := by
  induction vs using List.reverseRecOn with
  | nil =>
    intro cache hc
    have h0 : (cache (c, s)).length - 100 = 0 := by omega
    simp [store_many, h0]
  | append_singleton l v ih =>
    intro cache hc
    have hfold : store_many cache c s (l ++ [v]) =
        store_slot_value (store_many cache c s l) c s v := by
      simp [store_many, List.foldl_append]
    rw [hfold, store_slot_value_apply, ih cache hc]
    have hA : ((cache (c, s) ++ l).length) = (cache (c, s)).length + l.length := by
      simp [List.length_append]
    have key := drop_keep_last_append (cache (c, s) ++ l) v
    rw [hA] at key
    have hXlen : (((cache (c, s) ++ l).drop ((cache (c, s)).length + l.length - 100)) ++
        [v]).length =
        ((cache (c, s) ++ l).drop ((cache (c, s)).length + l.length - 100)).length + 1 := by
      simp
    rw [hXlen, key]
    have h5 : (l ++ [v]).length = l.length + 1 := by simp
    rw [h5, List.append_assoc]
    have h6 : (cache (c, s)).length + l.length + 1 - 100 =
        (cache (c, s)).length + (l.length + 1) - 100 := by omega
    rw [h6]

/-- The contents of the per-key history after any sequence of stores from a
fresh cache: the most recent 100 values, oldest first. -/
lemma store_many_empty (c : ℕ) (s : SlotKey) (vs : List ℕ) :
    store_many emptyCache c s vs (c, s) = vs.drop (vs.length - 100) := by
  have := store_many_apply c s vs emptyCache (by simp [emptyCache])
  simpa [emptyCache] using this

lemma getLast?_append_right (l₁ l₂ : List ℕ) (h : l₂ ≠ []) :
    (l₁ ++ l₂).getLast? = l₂.getLast? := by
  cases h2 : l₂.getLast? with
  | none => exact absurd (List.getLast?_eq_none_iff.mp h2) h
  | some a => rw [List.getLast?_append, h2]; rfl

lemma getLast?_drop_sub (l : List ℕ) (n : ℕ) (hn : 0 < n) :
    (l.drop (l.length - n)).getLast? = l.getLast? := by
  rcases eq_or_ne l [] with rfl | hne
  · simp
  · have hpos : 0 < l.length := List.length_pos.mpr hne
    have hne2 : l.drop (l.length - n) ≠ [] := by
      intro hx
      have := congrArg List.length hx
      rw [List.length_drop] at this
      simp only [List.length_nil] at this
      omega
    conv_rhs => rw [← List.take_append_drop (l.length - n) l]
    rw [getLast?_append_right _ _ hne2]

/-- C2: for every sequence of `store_slot_value` calls on one
`(contract, slot_key)`, `get_slot_history` returns at most 100 values,
namely the most recent 100 stored values in insertion order (oldest first);
`get_latest_value` returns the last stored value, and is `none` exactly when
nothing was ever stored for the key. -/
theorem slot_history_bounded (contract : ℕ) (slot : SlotKey) (values : List ℕ) :
    get_slot_history (store_many emptyCache contract slot values) contract slot =
        values.drop (values.length - 100)
    ∧ (get_slot_history (store_many emptyCache contract slot values) contract slot).length ≤ 100
    ∧ get_latest_value (store_many emptyCache contract slot values) contract slot =
        values.getLast?
    ∧ (get_latest_value (store_many emptyCache contract slot values) contract slot = none ↔
        values = []) := by
  have hmain : get_slot_history (store_many emptyCache contract slot values) contract slot =
      values.drop (values.length - 100) := store_many_empty contract slot values
  refine ⟨hmain, ?_, ?_, ?_⟩
  · rw [hmain]; rw [List.length_drop]; omega
  · show (store_many emptyCache contract slot values (contract, slot)).getLast? = _
    rw [store_many_empty contract slot values]
    exact getLast?_drop_sub values 100 (by norm_num)
  · show (store_many emptyCache contract slot values (contract, slot)).getLast? = none ↔ _
    rw [store_many_empty contract slot values, getLast?_drop_sub values 100 (by norm_num)]
    exact List.getLast?_eq_none_iff

lemma trip_many_cons (cb : CircuitBreaker) (t : ℕ) (ts : List ℕ) :
    trip_many cb (t :: ts) = trip_many (cb.trip t) ts := rfl

lemma trip_many_threshold : ∀ (times : List ℕ) (cb : CircuitBreaker),
    (trip_many cb times).circuit_breaker_threshold = cb.circuit_breaker_threshold
  | [], _ => rfl
  | t :: ts, cb => by rw [trip_many_cons, trip_many_threshold ts]; rfl

lemma trip_many_cool_down : ∀ (times : List ℕ) (cb : CircuitBreaker),
    (trip_many cb times).cool_down = cb.cool_down
  | [], _ => rfl
  | t :: ts, cb => by rw [trip_many_cons, trip_many_cool_down ts]; rfl

lemma trip_many_auto_reset : ∀ (times : List ℕ) (cb : CircuitBreaker),
    (trip_many cb times).auto_reset = cb.auto_reset
  | [], _ => rfl
  | t :: ts, cb => by rw [trip_many_cons, trip_many_auto_reset ts]; rfl

lemma trip_many_count : ∀ (times : List ℕ) (cb : CircuitBreaker),
    (trip_many cb times).error_count = cb.error_count + times.length
  | [], cb => by simp [trip_many]
  | t :: ts, cb => by
      rw [trip_many_cons, trip_many_count ts]
      simp [CircuitBreaker.trip]
      omega

lemma trip_many_last_none : ∀ (times : List ℕ) (cb : CircuitBreaker),
    cb.last_tripped = none →
    cb.error_count + times.length < cb.circuit_breaker_threshold →
    (trip_many cb times).last_tripped = none
  | [], _ => fun h _ => h
  | t :: ts, cb => fun h hlt => by
      rw [trip_many_cons]
      have hlt2 : cb.error_count + 1 + ts.length < cb.circuit_breaker_threshold := by
        simp only [List.length_cons] at hlt
        omega
      apply trip_many_last_none ts
      · simp only [CircuitBreaker.trip]
        rw [if_neg (by omega)]
        exact h
      · simp only [CircuitBreaker.trip]
        omega

/-- C5: calling `trip()` exactly `T` times (threshold `T ≥ 1`, cool-down
`D ≥ 1`, auto-reset on) from a reset state makes `is_tripped()` true
immediately (at the time of the last trip); once `D` has elapsed since the
trip time, `is_tripped()` returns false and resets the state (counter
zeroed, trip timestamp cleared); and under every interleaving of
`trip`/`is_tripped`/`reset` calls the error counter either does not
decrease or is zeroed outright — there is no partial decay. -/
theorem circuit_breaker_spec (T D : ℕ) (hT : 1 ≤ T) (hD : 1 ≤ D)
    (ts : List ℕ) (t : ℕ) (hlen : (ts ++ [t]).length = T) :
    ((trip_many (CircuitBreaker.new T D true) (ts ++ [t])).error_count = T
      ∧ (trip_many (CircuitBreaker.new T D true) (ts ++ [t])).last_tripped = some t)
    ∧ ((trip_many (CircuitBreaker.new T D true) (ts ++ [t])).is_tripped t).1 = true
    ∧ (∀ now, t + D ≤ now →
        (trip_many (CircuitBreaker.new T D true) (ts ++ [t])).is_tripped now =
          (false, CircuitBreaker.new T D true))
    ∧ (∀ (cb : CircuitBreaker) (op : BreakerOp),
        cb.error_count ≤ (op.apply cb).error_count ∨ (op.apply cb).error_count = 0) := by
  have hts : ts.length + 1 = T := by simpa using hlen
  have hfold : trip_many (CircuitBreaker.new T D true) (ts ++ [t]) =
      (trip_many (CircuitBreaker.new T D true) ts).trip t := by
    simp [trip_many, List.foldl_append]
  have hthr : (trip_many (CircuitBreaker.new T D true) ts).circuit_breaker_threshold = T :=
    trip_many_threshold ts _
  have hcount : (trip_many (CircuitBreaker.new T D true) ts).error_count = ts.length := by
    rw [trip_many_count]; simp [CircuitBreaker.new]
  have hfec : (trip_many (CircuitBreaker.new T D true) (ts ++ [t])).error_count = T := by
    rw [trip_many_count]
    simp [CircuitBreaker.new]
    omega
  have hfth : (trip_many (CircuitBreaker.new T D true) (ts ++ [t])).circuit_breaker_threshold =
      T := trip_many_threshold _ _
  have hfcd : (trip_many (CircuitBreaker.new T D true) (ts ++ [t])).cool_down = D :=
    trip_many_cool_down _ _
  have hfar : (trip_many (CircuitBreaker.new T D true) (ts ++ [t])).auto_reset = true :=
    trip_many_auto_reset _ _
  have hflast : (trip_many (CircuitBreaker.new T D true) (ts ++ [t])).last_tripped = some t := by
    rw [hfold]
    simp only [CircuitBreaker.trip]
    rw [hthr, hcount, if_pos (by omega)]
  refine ⟨⟨hfec, hflast⟩, ?_, ?_, fun cb op => ?_⟩
  · simp only [CircuitBreaker.is_tripped, hfec, hfth, hfcd, hflast]
    rw [if_neg (lt_irrefl T)]
    rw [Nat.sub_self, if_pos (show 0 < D by omega)]
  · intro now hnow
    simp only [CircuitBreaker.is_tripped, hfec, hfth, hfcd, hfar, hflast]
    rw [if_neg (lt_irrefl T)]
    rw [if_neg (show ¬ (now - t < D) by omega)]
    rw [if_pos trivial]
    refine congrArg (Prod.mk false) ?_
    have : ∀ cb2 : CircuitBreaker, cb2.circuit_breaker_threshold = T → cb2.cool_down = D →
        cb2.auto_reset = true → cb2.reset = CircuitBreaker.new T D true := by
      intro cb2 h1 h2 h3
      cases cb2
      simp only at h1 h2 h3
      subst h1; subst h2; subst h3
      rfl
    exact this _ hfth hfcd hfar
  · cases op with
    | trip now =>
        left
        simp [BreakerOp.apply, CircuitBreaker.trip]
    | reset =>
        right
        rfl
    | is_tripped now =>
        show cb.error_count ≤ ((cb.is_tripped now).2).error_count ∨
          ((cb.is_tripped now).2).error_count = 0
        by_cases h1 : cb.error_count < cb.circuit_breaker_threshold
        · simp [CircuitBreaker.is_tripped, h1]
        · cases h2 : cb.last_tripped with
          | none => simp [CircuitBreaker.is_tripped, h1, h2]
          | some last =>
            by_cases h3 : now - last < cb.cool_down
            · simp [CircuitBreaker.is_tripped, h1, h2, h3]
            · by_cases h4 : cb.auto_reset
              · simp [CircuitBreaker.is_tripped, CircuitBreaker.reset, h1, h2, h3, h4]
              · simp [CircuitBreaker.is_tripped, h1, h2, h3, h4]

/-- Witness for C5 at threshold 2, cool-down 5, trips at times 3 and 4. -/
theorem circuit_breaker_spec_witness :
    ((1 : ℕ) ≤ 2 ∧ (1 : ℕ) ≤ 5 ∧ (([3] : List ℕ) ++ [4]).length = 2) ∧
    (((trip_many (CircuitBreaker.new 2 5 true) ([3] ++ [4])).error_count = 2
      ∧ (trip_many (CircuitBreaker.new 2 5 true) ([3] ++ [4])).last_tripped = some 4)
    ∧ ((trip_many (CircuitBreaker.new 2 5 true) ([3] ++ [4])).is_tripped 4).1 = true
    ∧ (∀ now, 4 + 5 ≤ now →
        (trip_many (CircuitBreaker.new 2 5 true) ([3] ++ [4])).is_tripped now =
          (false, CircuitBreaker.new 2 5 true))
    ∧ (∀ (cb : CircuitBreaker) (op : BreakerOp),
        cb.error_count ≤ (op.apply cb).error_count ∨ (op.apply cb).error_count = 0)) :=
  ⟨⟨by norm_num, by norm_num, by decide⟩,
    circuit_breaker_spec 2 5 (by norm_num) (by norm_num) [3] 4 (by decide)⟩

lemma count_failed_reconnects_aux : ∀ (n a e : ℕ),
    count_failed_reconnects ⟨false, e, a⟩ n = min n (6 - a) := by
  intro n
  induction n with
  | zero => intro a e; simp [count_failed_reconnects]
  | succ n ih =>
    intro a e
    by_cases h : 5 < a
    · have hr : try_reconnect_ws ⟨false, e, a⟩ false = (⟨false, e, a⟩, false) := by
        simp [try_reconnect_ws, h]
      simp only [count_failed_reconnects, hr]
      rw [if_neg (by decide), ih a e]
      omega
    · have hr : try_reconnect_ws ⟨false, e, a⟩ false = (⟨false, e, a + 1⟩, true) := by
        simp [try_reconnect_ws, h]
      simp only [count_failed_reconnects, hr]
      rw [if_pos trivial, ih (a + 1) e]
      omega

/-- C8 (amended): reaching 3 consecutive errors in the push state marks the
connection disconnected (the orchestrator then takes the polling branch);
while disconnected, at most 6 — not 5 — consecutive reconnect attempts are
made before the guard blocks further ones (the guard only skips once the
attempt counter exceeds 5, which happens after the sixth attempt); and a
successful reconnect within the guard sets the connection back to the push
state and zeroes both `consecutive_errors` and `reconnect_attempts`. -/
theorem connection_failover_spec :
    (∀ s : ConnState, MAX_CONSECUTIVE_ERRORS ≤ s.consecutive_errors + 1 →
        (handle_connection_error s).ws_connected = false ∧
        (handle_connection_error s).consecutive_errors = s.consecutive_errors + 1)
    ∧ (∀ s : ConnState, 5 < s.reconnect_attempts →
        try_reconnect_ws s false = (s, false) ∧ try_reconnect_ws s true = (s, false))
    ∧ (∀ n e : ℕ, count_failed_reconnects ⟨false, e, 0⟩ n = min n 6)
    ∧ (∀ s : ConnState, s.ws_connected = false → s.reconnect_attempts ≤ 5 →
        try_reconnect_ws s true = (⟨true, 0, 0⟩, true)) := by
  refine ⟨?_, ?_, ?_, ?_⟩
  · intro s h
    constructor
    · simp [handle_connection_error, if_pos h]
    · simp [handle_connection_error]
  · intro s h
    constructor <;> simp [try_reconnect_ws, h]
  · intro n e
    simpa using count_failed_reconnects_aux n 0 e
  · intro s h1 h2
    simp [try_reconnect_ws, h1, show ¬ 5 < s.reconnect_attempts by omega]

/-- Witness for C8's amended statement at concrete states. -/
theorem connection_failover_spec_witness :
    ((handle_connection_error ⟨true, 2, 0⟩).ws_connected = false ∧
      (handle_connection_error ⟨true, 2, 0⟩).consecutive_errors = 2 + 1)
    ∧ (try_reconnect_ws ⟨false, 0, 7⟩ false = (⟨false, 0, 7⟩, false) ∧
        try_reconnect_ws ⟨false, 0, 7⟩ true = (⟨false, 0, 7⟩, false))
    ∧ count_failed_reconnects ⟨false, 1, 0⟩ 8 = min 8 6
    ∧ try_reconnect_ws ⟨false, 3, 2⟩ true = (⟨true, 0, 0⟩, true) :=
  ⟨connection_failover_spec.1 ⟨true, 2, 0⟩ (by decide),
    connection_failover_spec.2.1 ⟨false, 0, 7⟩ (by decide),
    connection_failover_spec.2.2.1 8 1,
    connection_failover_spec.2.2.2 ⟨false, 3, 2⟩ rfl (by decide)⟩

/-- Counterexample for C8 as stated: from a freshly disconnected state a
sixth consecutive reconnect attempt is made — the code caps consecutive
attempts at 6, not at 5. -/
theorem connection_failover_counterexample :
    count_failed_reconnects ⟨false, 0, 0⟩ 6 = 6 ∧ 5 < 6 := by decide

lemma calculate_balance_impact_eval (A B : ℕ) (hA : A < 2 ^ 128) (hB : B < 2 ^ 128) :
    calculate_balance_impact A B =
      some (if B = 0 then 1 else min ((A : ℚ) / (B : ℚ)) 1) := by
  by_cases h : B = 0
  · simp [calculate_balance_impact, h]
  · simp only [calculate_balance_impact]
    rw [if_neg h, if_neg (by omega), if_neg h]

lemma calculate_balance_impact_bounds (A B : ℕ) (hA : A < 2 ^ 128) (hB : B < 2 ^ 128) :
    ∃ q, calculate_balance_impact A B = some q ∧ 0 ≤ q ∧ q ≤ 1 := by
  rw [calculate_balance_impact_eval A B hA hB]
  refine ⟨_, rfl, ?_, ?_⟩
  · split_ifs with h
    · norm_num
    · exact le_min (by positivity) zero_le_one
  · split_ifs with h
    · norm_num
    · exact min_le_right _ _

lemma calculate_reserve_impact_eval (o n : ℕ) (ho : o < 2 ^ 128) (hn : n < 2 ^ 128) :
    calculate_reserve_impact o n =
      some (if o = 0 then 1
        else min (((if o < n then n - o else o - n : ℕ) : ℚ) / (o : ℚ) * 2) 1) := by
  by_cases h : o = 0
  · simp [calculate_reserve_impact, h]
  · have hchange : (if o < n then n - o else o - n) < 2 ^ 128 := by split_ifs <;> omega
    simp only [calculate_reserve_impact]
    rw [if_neg h, if_neg (by omega), if_neg h]

lemma calculate_reserve_impact_bounds (o n : ℕ) (ho : o < 2 ^ 128) (hn : n < 2 ^ 128) :
    ∃ q, calculate_reserve_impact o n = some q ∧ 0 ≤ q ∧ q ≤ 1 := by
  rw [calculate_reserve_impact_eval o n ho hn]
  refine ⟨_, rfl, ?_, ?_⟩
  · split_ifs with h1 h2
    · norm_num
    · exact le_min (by positivity) zero_le_one
    · exact le_min (by positivity) zero_le_one
  · split_ifs with h1 h2
    · norm_num
    · exact min_le_right _ _
    · exact min_le_right _ _

/-- C10 (amended): on every pair of inputs whose values fit in `u128` the
impact helpers return a value in [0,1]; whenever the denominator (the prior
balance, respectively the old reserve) is zero they return exactly 1.0 —
including the old-reserve-zero case — and never divide by zero.  They are,
however, not total: a `u128` conversion overflow panics (see the
counterexample). -/
theorem impact_helpers_spec :
    (∀ A B : ℕ, A < 2 ^ 128 → B < 2 ^ 128 →
        ∃ q, calculate_balance_impact A B = some q ∧ 0 ≤ q ∧ q ≤ 1)
    ∧ (∀ A : ℕ, calculate_balance_impact A 0 = some 1)
    ∧ (∀ o n : ℕ, o < 2 ^ 128 → n < 2 ^ 128 →
        ∃ q, calculate_reserve_impact o n = some q ∧ 0 ≤ q ∧ q ≤ 1)
    ∧ (∀ n : ℕ, calculate_reserve_impact 0 n = some 1) := by
  refine ⟨calculate_balance_impact_bounds, ?_, calculate_reserve_impact_bounds, ?_⟩
  · intro A; simp [calculate_balance_impact]
  · intro n; simp [calculate_reserve_impact]

/-- Witness for C10's amended statement at small concrete inputs. -/
theorem impact_helpers_spec_witness :
    ((3 : ℕ) < 2 ^ 128 ∧ (2 : ℕ) < 2 ^ 128 ∧ (4 : ℕ) < 2 ^ 128 ∧ (9 : ℕ) < 2 ^ 128) ∧
    (∃ q, calculate_balance_impact 3 2 = some q ∧ 0 ≤ q ∧ q ≤ 1)
    ∧ calculate_balance_impact 7 0 = some 1
    ∧ (∃ q, calculate_reserve_impact 4 9 = some q ∧ 0 ≤ q ∧ q ≤ 1)
    ∧ calculate_reserve_impact 0 5 = some 1 :=
  ⟨⟨by norm_num, by norm_num, by norm_num, by norm_num⟩,
    impact_helpers_spec.1 3 2 (by norm_num) (by norm_num),
    impact_helpers_spec.2.1 7,
    impact_helpers_spec.2.2.1 4 9 (by norm_num) (by norm_num),
    impact_helpers_spec.2.2.2 5⟩

/-- Counterexample for C10 as stated: for inputs of 128 bits or more the
`as_u128` conversion inside each helper panics (modelled as `none`), so the
helpers are not total over all pairs of inputs. -/
theorem impact_helpers_counterexample :
    calculate_balance_impact (2 ^ 128) 1 = none ∧
      calculate_reserve_impact (2 ^ 128) 1 = none := by
  constructor
  · simp only [calculate_balance_impact]
    rw [if_neg (by norm_num), if_pos (Or.inl le_rfl)]
  · simp only [calculate_reserve_impact]
    rw [if_neg (by positivity), if_pos (Or.inr le_rfl)]

lemma handle_transfer_event_eval (t0 a1 a2 : ℕ) (bs : List ℕ) (cache : Cache)
    (blk ct : ℕ) (oF oT : Option ℕ)
    (h32 : 32 ≤ bs.length)
    (eF : get_latest_value cache ct (SlotKey.BalanceOf (a1 % 2 ^ 160)) = oF)
    (eT : get_latest_value cache ct (SlotKey.BalanceOf (a2 % 2 ^ 160)) = oT)
    (hA : from_big_endian (bs.take 32) < 2 ^ 128)
    (hF : ∀ b ∈ oF, b < 2 ^ 128) (hT : ∀ b ∈ oT, b < 2 ^ 128) :
    handle_transfer_event ⟨[t0, a1, a2], bs⟩ cache blk ct =
      some (
        (if a1 % 2 ^ 160 ≠ 0 then
          oF.toList.map fun b =>
            { slot_key := SlotKey.BalanceOf (a1 % 2 ^ 160)
              old_value := b
              new_value := b - from_big_endian (bs.take 32)
              change_type := StorageChangeType.MappingUpdate
              impact_score :=
                if b = 0 then 1 else min ((from_big_endian (bs.take 32) : ℚ) / (b : ℚ)) 1
              confidence := 0.95
              block_number := blk
              contract := ct }
        else []) ++
        (if a2 % 2 ^ 160 ≠ 0 then
          oT.toList.map fun b =>
            { slot_key := SlotKey.BalanceOf (a2 % 2 ^ 160)
              old_value := b
              new_value := min (b + from_big_endian (bs.take 32)) (2 ^ 256 - 1)
              change_type := StorageChangeType.MappingUpdate
              impact_score :=
                if b = 0 then 1 else min ((from_big_endian (bs.take 32) : ℚ) / (b : ℚ)) 1
              confidence := 0.95
              block_number := blk
              contract := ct }
        else [])) := by
  have hg1 : ([t0, a1, a2] : List ℕ).getD 1 0 = a1 := rfl
  have hg2 : ([t0, a1, a2] : List ℕ).getD 2 0 = a2 := rfl
  simp only [handle_transfer_event]
  rw [if_pos ⟨by simp, h32⟩]
  simp only [hg1, hg2, eF, eT]
  rcases oF with _ | B <;> rcases oT with _ | B2
  · split_ifs <;> simp
  · have hB2 : B2 < 2 ^ 128 := hT B2 rfl
    dsimp only
    rw [calculate_balance_impact_eval (from_big_endian (bs.take 32)) B2 hA hB2]
    split_ifs <;> simp [*]
  · have hB : B < 2 ^ 128 := hF B rfl
    dsimp only
    rw [calculate_balance_impact_eval (from_big_endian (bs.take 32)) B hA hB]
    split_ifs <;> simp [*]
  · have hB : B < 2 ^ 128 := hF B rfl
    have hB2 : B2 < 2 ^ 128 := hT B2 rfl
    dsimp only
    rw [calculate_balance_impact_eval (from_big_endian (bs.take 32)) B hA hB,
      calculate_balance_impact_eval (from_big_endian (bs.take 32)) B2 hA hB2]
    split_ifs <;> simp [*]

/-- C3: for a Transfer log (three topics, a 32-byte amount `A`, values
within `u128`), a sender that is not the zero address and has a cached
prior balance `B` yields a `MappingUpdate` delta with new value `B - A`
(saturating at zero) and confidence 0.95; the receiver symmetrically gets
`min (B + A) (2^256 - 1)` (saturating addition); an endpoint with no
cached prior balance yields no delta. -/
theorem transfer_decoder_spec (t0 a1 a2 : ℕ) (bs : List ℕ) (cache : Cache)
    (blk ct : ℕ) (oF oT : Option ℕ)
    (h32 : 32 ≤ bs.length)
    (eF : get_latest_value cache ct (SlotKey.BalanceOf (a1 % 2 ^ 160)) = oF)
    (eT : get_latest_value cache ct (SlotKey.BalanceOf (a2 % 2 ^ 160)) = oT)
    (hA : from_big_endian (bs.take 32) < 2 ^ 128)
    (hF : ∀ b ∈ oF, b < 2 ^ 128) (hT : ∀ b ∈ oT, b < 2 ^ 128) :
    ∃ l, handle_transfer_event ⟨[t0, a1, a2], bs⟩ cache blk ct = some l ∧
      l.map (fun d => (d.slot_key, d.old_value, d.new_value, d.change_type, d.confidence)) =
        (if a1 % 2 ^ 160 ≠ 0 then
          oF.toList.map fun b =>
            (SlotKey.BalanceOf (a1 % 2 ^ 160), b, b - from_big_endian (bs.take 32),
              StorageChangeType.MappingUpdate, (0.95 : ℚ))
        else []) ++
        (if a2 % 2 ^ 160 ≠ 0 then
          oT.toList.map fun b =>
            (SlotKey.BalanceOf (a2 % 2 ^ 160), b,
              min (b + from_big_endian (bs.take 32)) (2 ^ 256 - 1),
              StorageChangeType.MappingUpdate, (0.95 : ℚ))
        else []) := by
  refine ⟨_, handle_transfer_event_eval t0 a1 a2 bs cache blk ct oF oT h32 eF eT hA hF hT, ?_⟩
  rcases oF with _ | B <;> rcases oT with _ | B2 <;> split_ifs <;> simp

/-- Witness for C3: address 5 transfers amount 4 to address 7; the sender
has cached balance 10, the receiver has no cached balance. -/
theorem transfer_decoder_spec_witness :
    ((32 : ℕ) ≤ transferData.length
    ∧ get_latest_value transferCache 1 (SlotKey.BalanceOf (5 % 2 ^ 160)) = some 10
    ∧ get_latest_value transferCache 1 (SlotKey.BalanceOf (7 % 2 ^ 160)) = none
    ∧ from_big_endian (transferData.take 32) < 2 ^ 128
    ∧ (∀ b ∈ (some 10 : Option ℕ), b < 2 ^ 128)
    ∧ (∀ b ∈ (none : Option ℕ), b < 2 ^ 128)) ∧
    (∃ l, handle_transfer_event ⟨[0, 5, 7], transferData⟩ transferCache 100 1 = some l ∧
      l.map (fun d => (d.slot_key, d.old_value, d.new_value, d.change_type, d.confidence)) =
        (if 5 % 2 ^ 160 ≠ 0 then
          (some 10 : Option ℕ).toList.map fun b =>
            (SlotKey.BalanceOf (5 % 2 ^ 160), b, b - from_big_endian (transferData.take 32),
              StorageChangeType.MappingUpdate, (0.95 : ℚ))
        else []) ++
        (if 7 % 2 ^ 160 ≠ 0 then
          (none : Option ℕ).toList.map fun b =>
            (SlotKey.BalanceOf (7 % 2 ^ 160), b,
              min (b + from_big_endian (transferData.take 32)) (2 ^ 256 - 1),
              StorageChangeType.MappingUpdate, (0.95 : ℚ))
        else [])) :=
  ⟨⟨by decide, by decide, by decide, by decide,
      by intro b hb; simp at hb; subst hb; norm_num, by intro b hb; simp at hb⟩,
    transfer_decoder_spec 0 5 7 transferData transferCache 100 1 (some 10) none
      (by decide) (by decide) (by decide) (by decide)
      (by intro b hb; simp at hb; subst hb; norm_num) (by intro b hb; simp at hb)⟩

/-- C9 (amended): the impact score of an emitted Transfer delta equals 1.0
when the cached prior balance is zero — for any amount, including zero —
and `min (A / B, 1.0)` otherwise (which coincides with
`min (A / max(B,1), 1.0)` since then `B ≥ 1`). -/
theorem transfer_impact_spec (t0 a1 a2 : ℕ) (bs : List ℕ) (cache : Cache)
    (blk ct : ℕ) (oF oT : Option ℕ)
    (h32 : 32 ≤ bs.length)
    (eF : get_latest_value cache ct (SlotKey.BalanceOf (a1 % 2 ^ 160)) = oF)
    (eT : get_latest_value cache ct (SlotKey.BalanceOf (a2 % 2 ^ 160)) = oT)
    (hA : from_big_endian (bs.take 32) < 2 ^ 128)
    (hF : ∀ b ∈ oF, b < 2 ^ 128) (hT : ∀ b ∈ oT, b < 2 ^ 128) :
    ∃ l, handle_transfer_event ⟨[t0, a1, a2], bs⟩ cache blk ct = some l ∧
      l.map (fun d => d.impact_score) =
        (if a1 % 2 ^ 160 ≠ 0 then
          oF.toList.map fun b =>
            if b = 0 then (1 : ℚ)
            else min ((from_big_endian (bs.take 32) : ℚ) / (b : ℚ)) 1
        else []) ++
        (if a2 % 2 ^ 160 ≠ 0 then
          oT.toList.map fun b =>
            if b = 0 then (1 : ℚ)
            else min ((from_big_endian (bs.take 32) : ℚ) / (b : ℚ)) 1
        else []) := by
  refine ⟨_, handle_transfer_event_eval t0 a1 a2 bs cache blk ct oF oT h32 eF eT hA hF hT, ?_⟩
  rcases oF with _ | B <;> rcases oT with _ | B2 <;> split_ifs <;> simp

/-- Witness for C9's amended statement: same Transfer fixture as C3 but
exercised through the impact projection. -/
theorem transfer_impact_spec_witness :
    ((32 : ℕ) ≤ transferData.length
    ∧ get_latest_value transferCache 1 (SlotKey.BalanceOf (5 % 2 ^ 160)) = some 10
    ∧ get_latest_value transferCache 1 (SlotKey.BalanceOf (7 % 2 ^ 160)) = none) ∧
    (∃ l, handle_transfer_event ⟨[0, 5, 7], transferData⟩ transferCache 100 1 = some l ∧
      l.map (fun d => d.impact_score) =
        (if 5 % 2 ^ 160 ≠ 0 then
          (some 10 : Option ℕ).toList.map fun b =>
            if b = 0 then (1 : ℚ)
            else min ((from_big_endian (transferData.take 32) : ℚ) / (b : ℚ)) 1
        else []) ++
        (if 7 % 2 ^ 160 ≠ 0 then
          (none : Option ℕ).toList.map fun b =>
            if b = 0 then (1 : ℚ)
            else min ((from_big_endian (transferData.take 32) : ℚ) / (b : ℚ)) 1
        else [])) :=
  ⟨⟨by decide, by decide, by decide⟩,
    transfer_impact_spec 0 5 7 transferData transferCache 100 1 (some 10) none
      (by decide) (by decide) (by decide) (by decide)
      (by intro b hb; simp at hb; subst hb; norm_num) (by intro b hb; simp at hb)⟩

/-- Counterexample for C9 as stated: a Transfer of amount 0 from an address
with cached balance 0 emits a delta with impact 1.0, while the claimed
formula `min (A / max(B,1), 1.0)` evaluates to 0 there. -/
theorem transfer_impact_counterexample :
    (handle_transfer_event ⟨[0, 5, 7], List.replicate 32 0⟩ zeroBalanceCache 100 1).map
        (List.map fun d => d.impact_score) = some [1]
    ∧ ¬ ((1 : ℚ) = min ((0 : ℚ) / max (0 : ℚ) 1) 1) := by
  constructor
  · decide
  · norm_num


lemma sync_event_eval (ts bs : List ℕ) (cache : Cache) (blk ct : ℕ) (o8 o9 : Option ℕ)
    (h64 : 64 ≤ bs.length)
    (e8 : get_latest_value cache ct (SlotKey.Reserves 8) = o8)
    (e9 : get_latest_value cache ct (SlotKey.Reserves 9) = o9)
    (h8 : ∀ x ∈ o8, x < 2 ^ 128) (h9 : ∀ x ∈ o9, x < 2 ^ 128)
    (hr0 : from_big_endian (bs.take 32) < 2 ^ 128)
    (hr1 : from_big_endian ((bs.drop 32).take 32) < 2 ^ 128) :
    sync_event ⟨ts, bs⟩ cache blk ct =
      some (
        (match o8 with
         | some old =>
             if old ≠ from_big_endian (bs.take 32) then
               [{ slot_key := SlotKey.Reserves 8
                  old_value := old
                  new_value := from_big_endian (bs.take 32)
                  change_type := StorageChangeType.DirectWrite
                  impact_score :=
                    if old = 0 then 1
                    else min (((if old < from_big_endian (bs.take 32) then
                        from_big_endian (bs.take 32) - old
                      else old - from_big_endian (bs.take 32) : ℕ) : ℚ) / (old : ℚ) * 2) 1
                  confidence := 0.99
                  block_number := blk
                  contract := ct }]
             else []
         | none => []) ++
        (match o9 with
         | some old =>
             if old ≠ from_big_endian ((bs.drop 32).take 32) then
               [{ slot_key := SlotKey.Reserves 9
                  old_value := old
                  new_value := from_big_endian ((bs.drop 32).take 32)
                  change_type := StorageChangeType.DirectWrite
                  impact_score :=
                    if old = 0 then 1
                    else min (((if old < from_big_endian ((bs.drop 32).take 32) then
                        from_big_endian ((bs.drop 32).take 32) - old
                      else old - from_big_endian ((bs.drop 32).take 32) : ℕ) : ℚ) / (old : ℚ) * 2) 1
                  confidence := 0.99
                  block_number := blk
                  contract := ct }]
             else []
         | none => [])) := by
  simp only [sync_event]
  rw [if_pos h64]
  simp only [e8, e9]
  rcases o8 with _ | old8 <;> rcases o9 with _ | old9
  · simp
  · have h9v : old9 < 2 ^ 128 := h9 old9 rfl
    dsimp only
    rw [calculate_reserve_impact_eval old9 (from_big_endian ((bs.drop 32).take 32)) h9v hr1]
    split_ifs <;> simp [*]
  · have h8v : old8 < 2 ^ 128 := h8 old8 rfl
    dsimp only
    rw [calculate_reserve_impact_eval old8 (from_big_endian (bs.take 32)) h8v hr0]
    split_ifs <;> simp [*]
  · have h8v : old8 < 2 ^ 128 := h8 old8 rfl
    have h9v : old9 < 2 ^ 128 := h9 old9 rfl
    dsimp only
    rw [calculate_reserve_impact_eval old8 (from_big_endian (bs.take 32)) h8v hr0,
      calculate_reserve_impact_eval old9 (from_big_endian ((bs.drop 32).take 32)) h9v hr1]
    split_ifs <;> simp [*]

/-- C4: for a Sync log (64 data bytes, values within `u128`) and a reserve
slot with a cached latest value: when the cached value equals the logged
reserve, no delta is emitted for that slot (replaying an unchanged Sync is
idempotent); when it differs, exactly one `DirectWrite` delta is emitted
for the slot, carrying the logged reserve as new value with confidence
0.99. -/
theorem sync_decoder_spec (ts bs : List ℕ) (cache : Cache) (blk ct : ℕ) (o8 o9 : Option ℕ)
    (h64 : 64 ≤ bs.length)
    (e8 : get_latest_value cache ct (SlotKey.Reserves 8) = o8)
    (e9 : get_latest_value cache ct (SlotKey.Reserves 9) = o9)
    (h8 : ∀ x ∈ o8, x < 2 ^ 128) (h9 : ∀ x ∈ o9, x < 2 ^ 128)
    (hr0 : from_big_endian (bs.take 32) < 2 ^ 128)
    (hr1 : from_big_endian ((bs.drop 32).take 32) < 2 ^ 128) :
    ∃ l, sync_event ⟨ts, bs⟩ cache blk ct = some l ∧
      (o8 = some (from_big_endian (bs.take 32)) →
        l.filter (fun d => d.slot_key = SlotKey.Reserves 8) = [])
      ∧ (∀ old, o8 = some old → old ≠ from_big_endian (bs.take 32) →
          (l.filter (fun d => d.slot_key = SlotKey.Reserves 8)).map
              (fun d => (d.old_value, d.new_value, d.change_type, d.confidence)) =
            [(old, from_big_endian (bs.take 32), StorageChangeType.DirectWrite, (0.99 : ℚ))])
      ∧ (o9 = some (from_big_endian ((bs.drop 32).take 32)) →
          l.filter (fun d => d.slot_key = SlotKey.Reserves 9) = [])
      ∧ (∀ old, o9 = some old → old ≠ from_big_endian ((bs.drop 32).take 32) →
          (l.filter (fun d => d.slot_key = SlotKey.Reserves 9)).map
              (fun d => (d.old_value, d.new_value, d.change_type, d.confidence)) =
            [(old, from_big_endian ((bs.drop 32).take 32), StorageChangeType.DirectWrite,
              (0.99 : ℚ))]) := by
  refine ⟨_, sync_event_eval ts bs cache blk ct o8 o9 h64 e8 e9 h8 h9 hr0 hr1, ?_, ?_, ?_, ?_⟩
  · intro heq
    subst heq
    rcases o9 with _ | old9 <;> simp
  · intro old heq hne
    subst heq
    rcases o9 with _ | old9 <;> simp
    all_goals split_ifs <;> simp_all
  · intro heq
    subst heq
    rcases o8 with _ | old8 <;> simp
  · intro old heq hne
    subst heq
    rcases o8 with _ | old8 <;> simp
    all_goals split_ifs <;> simp_all

/-- Witness for C4: a Sync log with reserves (5, 7); slot 8 is cached at 5
(unchanged, no delta), slot 9 is cached at 3 (changed, one delta). -/
theorem sync_decoder_spec_witness :
    ((64 : ℕ) ≤ syncData.length
    ∧ get_latest_value syncCache 1 (SlotKey.Reserves 8) = some 5
    ∧ get_latest_value syncCache 1 (SlotKey.Reserves 9) = some 3
    ∧ from_big_endian (syncData.take 32) < 2 ^ 128
    ∧ from_big_endian ((syncData.drop 32).take 32) < 2 ^ 128) ∧
    (∃ l, sync_event ⟨[], syncData⟩ syncCache 100 1 = some l ∧
      (some 5 = some (from_big_endian (syncData.take 32)) →
        l.filter (fun d => d.slot_key = SlotKey.Reserves 8) = [])
      ∧ (∀ old, (some 5 : Option ℕ) = some old → old ≠ from_big_endian (syncData.take 32) →
          (l.filter (fun d => d.slot_key = SlotKey.Reserves 8)).map
              (fun d => (d.old_value, d.new_value, d.change_type, d.confidence)) =
            [(old, from_big_endian (syncData.take 32), StorageChangeType.DirectWrite,
              (0.99 : ℚ))])
      ∧ (some 3 = some (from_big_endian ((syncData.drop 32).take 32)) →
          l.filter (fun d => d.slot_key = SlotKey.Reserves 9) = [])
      ∧ (∀ old, (some 3 : Option ℕ) = some old →
          old ≠ from_big_endian ((syncData.drop 32).take 32) →
          (l.filter (fun d => d.slot_key = SlotKey.Reserves 9)).map
              (fun d => (d.old_value, d.new_value, d.change_type, d.confidence)) =
            [(old, from_big_endian ((syncData.drop 32).take 32), StorageChangeType.DirectWrite,
              (0.99 : ℚ))])) :=
  ⟨⟨by decide, by decide, by decide, by decide, by decide⟩,
    sync_decoder_spec [] syncData syncCache 100 1 (some 5) (some 3)
      (by decide) (by decide) (by decide)
      (by intro x hx; simp at hx; subst hx; norm_num)
      (by intro x hx; simp at hx; subst hx; norm_num)
      (by decide) (by decide)⟩


/-- C7 (amended): after persisting the drift events of block `N`, if the
history then holds more than 1000 entries, it contains no entry keyed at or
below `N - 1000`; the purge runs only when more than 1000 block entries are
retained, not on every store. -/
theorem drift_retention_spec (history : DriftHistory) (N : ℕ) (events : List SlotDriftEvent)
    (hlen : 1000 < (insert_block history N events).length) :
    ∀ p ∈ store_drift_events history N events, N - 1000 < p.1 := by
  intro p hp
  simp only [store_drift_events] at hp
  rw [if_pos hlen] at hp
  have := List.of_mem_filter hp
  simpa using this

set_option maxRecDepth 8000 in
/-- Witness for C7's amended statement: storing block 2000 into a
1001-entry history triggers the purge. -/
theorem drift_retention_spec_witness :
    1000 < (insert_block bigHistory 2000 []).length ∧
    ∀ p ∈ store_drift_events bigHistory 2000 [], 2000 - 1000 < p.1 :=
  ⟨by decide, fun p hp => drift_retention_spec bigHistory 2000 [] (by decide) p hp⟩

/-- Counterexample for C7 as stated: persisting block 2000 into a history
holding only block 1 keeps the entry for block 1, although 1 is at or below
2000 - 1000 — the purge does not run on every store. -/
theorem drift_retention_counterexample :
    (store_drift_events (store_drift_events [] 1 []) 2000 []).map Prod.fst = [1, 2000]
    ∧ (1 : ℕ) ≤ 2000 - 1000 := by decide

lemma calculate_volatility_nonneg (values : List ℕ) : 0 ≤ calculate_volatility values := by
  simp only [calculate_volatility]
  split_ifs with h
  · exact le_refl 0
  · apply div_nonneg (Real.sqrt_nonneg _)
    have h1 : (0 : ℝ) < max
        ((values.map fun h => ((h % 2 ^ 64 : ℕ) : ℝ)).sum /
          ((values.map fun h => ((h % 2 ^ 64 : ℕ) : ℝ)).length : ℝ)) 1 :=
      lt_of_lt_of_le zero_lt_one (le_max_right _ 1)
    exact le_of_lt h1

lemma volatility_eq_spec (values : List ℕ) (h2 : 2 ≤ values.length) :
    calculate_volatility values =
      spec_volatility (real_values (values.map fun v => v % 2 ^ 64)) := by
  have hmap : real_values (values.map fun v => v % 2 ^ 64) =
      values.map fun h => ((h % 2 ^ 64 : ℕ) : ℝ) := by
    simp only [real_values, List.map_map]
    rfl
  simp only [calculate_volatility, spec_volatility]
  rw [if_neg (by omega), hmap]

lemma calculate_volatility_mod (values : List ℕ) :
    calculate_volatility (values.map fun v => v % 2 ^ 64) = calculate_volatility values := by
  have hm : ((values.map fun v => v % 2 ^ 64).map fun h => ((h % 2 ^ 64 : ℕ) : ℝ)) =
      values.map fun h => ((h % 2 ^ 64 : ℕ) : ℝ) := by
    rw [List.map_map]
    refine List.map_congr_left fun v _ => ?_
    simp only [Function.comp]
    rw [Nat.mod_mod_of_dvd v dvd_rfl]
  simp only [calculate_volatility, List.length_map, hm]

lemma drift_score_closed_form (changes : List StorageDelta) (history : List ℕ)
    (h1 : changes ≠ []) :
    calculate_drift_score changes history =
      min ((if 3 < changes.length then (0.3 : ℝ) else 0) + mean_impact changes * 0.4 +
        (if 10 < history.length then calculate_volatility history * 0.3 else 0)) 1 := by
  have hne : ¬ changes.isEmpty = true := by simpa [List.isEmpty_iff] using h1
  simp only [calculate_drift_score, mean_impact]
  rw [if_neg hne]
  split_ifs <;> ((congr 1) <;> ring)

/-- C1 (amended): for a nonempty delta group with nonnegative impact
scores, the drift score equals the specification formula
`min (0.3·[count>3] + 0.4·mean(impact) + 0.3·volatility) 1`, where
volatility is the coefficient of variation (standard deviation over the
mean floored at 1) of the cached history read through the low 64 bits of
each value (`H256::low_u64`) — not of the raw cached values — and
contributes only when more than 10 history entries are cached; the score
lies in [0,1]; and it is monotonically non-decreasing in the mean impact
with the group size and the history held fixed. -/
theorem drift_score_spec (changes : List StorageDelta) (history : List ℕ)
    (h1 : changes ≠ [])
    (h2 : ∀ d ∈ changes, 0 ≤ d.impact_score) :
    calculate_drift_score changes history =
        spec_drift_score changes.length (mean_impact changes)
          (spec_volatility (real_values (history.map fun v => v % 2 ^ 64))) history.length
    ∧ 0 ≤ calculate_drift_score changes history
    ∧ calculate_drift_score changes history ≤ 1
    ∧ ∀ other : List StorageDelta, other.length = changes.length →
        mean_impact changes ≤ mean_impact other →
        calculate_drift_score changes history ≤ calculate_drift_score other history := by
  have hmean : 0 ≤ mean_impact changes := by
    apply div_nonneg
    · apply List.sum_nonneg
      intro x hx
      obtain ⟨d, hd, rfl⟩ := List.mem_map.mp hx
      exact_mod_cast h2 d hd
    · positivity
  have hcf := drift_score_closed_form changes history h1
  refine ⟨?_, ?_, ?_, ?_⟩
  · rw [hcf, spec_drift_score]
    by_cases h10 : 10 < history.length
    · rw [if_pos h10, if_pos h10, volatility_eq_spec history (by omega)]
      congr 1
      ring
    · rw [if_neg h10, if_neg h10]
      congr 1
      ring
  · rw [hcf]
    apply le_min _ zero_le_one
    have hv : 0 ≤ (if 10 < history.length then calculate_volatility history * 0.3 else 0) := by
      split_ifs
      · exact mul_nonneg (calculate_volatility_nonneg history) (by norm_num)
      · exact le_refl 0
    have hflag : 0 ≤ (if 3 < changes.length then (0.3 : ℝ) else 0) := by
      split_ifs <;> norm_num
    have hm4 : 0 ≤ mean_impact changes * 0.4 := mul_nonneg hmean (by norm_num)
    linarith
  · rw [hcf]
    exact min_le_right _ _
  · intro other hlen hmono
    have hone : other ≠ [] := by
      intro hx
      apply h1
      rw [← List.length_eq_zero, ← hlen, hx]
      simp
    rw [drift_score_closed_form changes history h1, drift_score_closed_form other history hone,
      hlen]
    apply min_le_min _ le_rfl
    have hstep := mul_le_mul_of_nonneg_right hmono (by norm_num : (0 : ℝ) ≤ 0.4)
    linarith

/-- Witness for C1's amended statement at a single delta of impact 1/2 and
an empty history. -/
theorem drift_score_spec_witness :
    (([halfImpactDelta] : List StorageDelta) ≠ []
    ∧ (∀ d ∈ [halfImpactDelta], 0 ≤ d.impact_score)) ∧
    (calculate_drift_score [halfImpactDelta] [] =
        spec_drift_score ([halfImpactDelta] : List StorageDelta).length
          (mean_impact [halfImpactDelta])
          (spec_volatility (real_values (([] : List ℕ).map fun v => v % 2 ^ 64)))
          ([] : List ℕ).length
    ∧ 0 ≤ calculate_drift_score [halfImpactDelta] []
    ∧ calculate_drift_score [halfImpactDelta] [] ≤ 1
    ∧ ∀ other : List StorageDelta, other.length = ([halfImpactDelta] : List StorageDelta).length →
        mean_impact [halfImpactDelta] ≤ mean_impact other →
        calculate_drift_score [halfImpactDelta] [] ≤ calculate_drift_score other []) :=
  ⟨⟨by simp, by intro d hd; simp at hd; subst hd; norm_num [halfImpactDelta]⟩,
    drift_score_spec [halfImpactDelta] [] (by simp)
      (by intro d hd; simp at hd; subst hd; norm_num [halfImpactDelta])⟩

lemma spec_volatility_flat (a : ℝ) (h1 : 1 ≤ a) :
    spec_volatility [0, 0, 0, 0, 0, 0, 2 * a, 2 * a, 2 * a, 2 * a, 2 * a, 2 * a] = 1 := by
  have h0 : (0 : ℝ) ≤ a := le_trans zero_le_one h1
  simp only [spec_volatility]
  have hsum : ([0, 0, 0, 0, 0, 0, 2 * a, 2 * a, 2 * a, 2 * a, 2 * a, 2 * a] : List ℝ).sum =
      12 * a := by
    simp [List.sum_cons]
    ring
  have hlen : ((([0, 0, 0, 0, 0, 0, 2 * a, 2 * a, 2 * a, 2 * a, 2 * a, 2 * a] :
      List ℝ).length) : ℝ) = 12 := by
    simp
  simp only [hsum, hlen]
  have hmu : (12 : ℝ) * a / 12 = a := by ring
  simp only [hmu]
  have e0 : ((0 : ℝ) - a) ^ 2 = a ^ 2 := by ring
  have e2 : ((2 : ℝ) * a - a) ^ 2 = a ^ 2 := by ring
  have hmap : ([0, 0, 0, 0, 0, 0, 2 * a, 2 * a, 2 * a, 2 * a, 2 * a, 2 * a] : List ℝ).map
      (fun x => (x - a) ^ 2) =
      [a ^ 2, a ^ 2, a ^ 2, a ^ 2, a ^ 2, a ^ 2, a ^ 2, a ^ 2, a ^ 2, a ^ 2, a ^ 2, a ^ 2] := by
    simp [e0, e2]
  rw [hmap]
  have hsum2 : ([a ^ 2, a ^ 2, a ^ 2, a ^ 2, a ^ 2, a ^ 2, a ^ 2, a ^ 2, a ^ 2, a ^ 2, a ^ 2,
      a ^ 2] : List ℝ).sum = 12 * a ^ 2 := by
    simp [List.sum_cons]
    ring
  rw [hsum2]
  have hvar : (12 : ℝ) * a ^ 2 / 12 = a ^ 2 := by ring
  rw [hvar, Real.sqrt_sq h0, max_eq_left h1]
  exact div_self (by linarith)

lemma flat_wrap_spec_volatility_eval :
    spec_volatility (real_values flatWrapHistory) = 1 := by
  have hrv : real_values flatWrapHistory =
      [0, 0, 0, 0, 0, 0, 2 * 2 ^ 63, 2 * 2 ^ 63, 2 * 2 ^ 63, 2 * 2 ^ 63, 2 * 2 ^ 63,
        2 * 2 ^ 63] := by
    simp only [real_values, flatWrapHistory, List.map_cons, List.map_nil]
    norm_num
  rw [hrv]
  exact spec_volatility_flat (2 ^ 63) (by norm_num)

lemma flat_wrap_volatility_eval : calculate_volatility flatWrapHistory = 0 := by
  have h1 : flatWrapHistory.map (fun v => v % 2 ^ 64) =
      [0, 0, 0, 0, 0, 0, 0, 0, 0, 0, 0, 0] := by decide
  rw [← calculate_volatility_mod flatWrapHistory, h1]
  simp only [calculate_volatility]
  rw [if_neg (by norm_num)]
  have hm : (([0, 0, 0, 0, 0, 0, 0, 0, 0, 0, 0, 0] : List ℕ).map
      fun h => ((h % 2 ^ 64 : ℕ) : ℝ)) = [0, 0, 0, 0, 0, 0, 0, 0, 0, 0, 0, 0] := by norm_num
  rw [hm]
  norm_num [List.sum_cons, Real.sqrt_zero]

lemma zero_impact_mean_eval : mean_impact [zeroImpactDelta] = 0 := by
  simp only [mean_impact, List.map_cons, List.map_nil, List.sum_cons, List.sum_nil]
  norm_num [zeroImpactDelta]

/-- Counterexample for C1 as stated: the code reads history values through
`H256::low_u64` before computing volatility. For a history of six 0s and
six `2^64`s every wrapped value is 0, so the code's drift score is 0, while
the claimed formula — volatility as the coefficient of variation of the
cached history values — yields volatility 1 and hence score 0.3. -/
theorem drift_score_counterexample :
    calculate_drift_score [zeroImpactDelta] flatWrapHistory = 0
    ∧ ¬ (calculate_drift_score [zeroImpactDelta] flatWrapHistory =
        spec_drift_score ([zeroImpactDelta] : List StorageDelta).length
          (mean_impact [zeroImpactDelta]) (spec_volatility (real_values flatWrapHistory))
          flatWrapHistory.length) := by
  have hscore : calculate_drift_score [zeroImpactDelta] flatWrapHistory = 0 := by
    rw [drift_score_closed_form [zeroImpactDelta] flatWrapHistory (by simp)]
    rw [if_neg (by decide : ¬ (3 < ([zeroImpactDelta] : List StorageDelta).length))]
    rw [if_pos (by decide : 10 < flatWrapHistory.length)]
    rw [flat_wrap_volatility_eval, zero_impact_mean_eval]
    norm_num
  refine ⟨hscore, ?_⟩
  rw [hscore, zero_impact_mean_eval, flat_wrap_spec_volatility_eval]
  simp only [spec_drift_score]
  rw [if_neg (by decide : ¬ (3 < ([zeroImpactDelta] : List StorageDelta).length))]
  rw [if_pos (by decide : 10 < flatWrapHistory.length)]
  have hval : (0 : ℝ) + 0.4 * 0 + 0.3 * 1 = 0.3 := by norm_num
  rw [hval, min_eq_left (by norm_num : (0.3 : ℝ) ≤ 1)]
  norm_num


lemma getD_reverse_head (l : List ℚ) (hne : 0 < l.length) :
    l.reverse.getD 0 0 = l.getD (l.length - 1) 0 := by
  rw [List.getD_eq_getElem?_getD, List.getD_eq_getElem?_getD]
  rw [List.getElem?_reverse (by simpa using hne)]
  simp

lemma getD_reverse_last (l : List ℚ) (hne : 0 < l.length) :
    l.reverse.getD (l.reverse.length - 1) 0 = l.getD 0 0 := by
  rw [List.getD_eq_getElem?_getD, List.getD_eq_getElem?_getD, List.length_reverse]
  rw [List.getElem?_reverse (by omega)]
  have h0 : l.length - 1 - (l.length - 1) = 0 := by omega
  rw [h0]

lemma getD_map_lt {α β : Type} (l : List α) (f : α → β) (i : ℕ) (hi : i < l.length)
    (d : β) (d2 : α) : (l.map f).getD i d = f (l.getD i d2) := by
  rw [List.getD_eq_getElem?_getD, List.getD_eq_getElem?_getD]
  rw [List.getElem?_map]
  rw [List.getElem?_eq_getElem hi]
  simp

lemma take_reverse_eq (l : List ℕ) (n : ℕ) :
    l.reverse.take n = (l.drop (l.length - n)).reverse := by
  apply List.reverse_injective
  rw [List.reverse_reverse, List.reverse_take]
  rw [List.reverse_reverse, List.length_reverse]

/-- `predict_future_value` computes the specification's extrapolation
formula over the low 64 bits of the cached observations, clamped below at
0 and cast to `u64`, as soon as at least 3 observations are cached. -/
lemma predict_future_value_spec (cache : Cache) (c : ℕ) (s : SlotKey)
    (h3 : 3 ≤ (get_slot_history cache c s).length) :
    predict_future_value cache c s =
      f64_as_u64 (max (spec_prediction
        ((get_slot_history cache c s).map fun v => v % 2 ^ 64)) 0) := by
  simp only [predict_future_value, spec_prediction]
  rw [if_neg (by omega)]
  set h := get_slot_history cache c s with hh
  set last10 := h.drop (h.length - 10) with hlast10
  have hlen10 : last10.length = h.length - (h.length - 10) := by
    rw [hlast10, List.length_drop]
  have hpos10 : 0 < last10.length := by omega
  have hdropmap : (h.map fun v => v % 2 ^ 64).drop ((h.map fun v => v % 2 ^ 64).length - 10) =
      last10.map fun v => v % 2 ^ 64 := by
    rw [List.length_map, hlast10]
    exact (List.map_drop _ _ _).symm
  rw [hdropmap]
  have hrecent : h.reverse.take 10 = last10.reverse := by
    rw [take_reverse_eq, hlast10]
  have hmap : (h.reverse.take 10).map (fun v => ((v % 2 ^ 64 : ℕ) : ℚ)) =
      (last10.map fun v => ((v % 2 ^ 64 : ℕ) : ℚ)).reverse := by
    rw [hrecent, List.map_reverse]
  rw [hmap]
  have hlenmap : (last10.map fun v => ((v % 2 ^ 64 : ℕ) : ℚ)).length = last10.length := by
    rw [List.length_map]
  rw [if_neg (by rw [List.length_reverse, hlenmap]; omega)]
  have hposmap : 0 < (last10.map fun v => ((v % 2 ^ 64 : ℕ) : ℚ)).length := by
    rw [hlenmap]; omega
  rw [getD_reverse_head _ hposmap, getD_reverse_last _ hposmap]
  rw [hlenmap]
  rw [getD_map_lt last10 _ (last10.length - 1) (by omega) 0 0,
    getD_map_lt last10 _ 0 (by omega) 0 0]
  have hlenmod : (last10.map fun v => v % 2 ^ 64).length = last10.length :=
    List.length_map _ _
  rw [hlenmod]
  rw [getD_map_lt last10 (fun v => v % 2 ^ 64) (last10.length - 1) (by omega) 0 0,
    getD_map_lt last10 (fun v => v % 2 ^ 64) 0 (by omega) 0 0]


lemma filterMap_if_not_mem {α β : Type} [DecidableEq α] (l : List α) (k : α)
    (g : α → Option β) (hk : k ∉ l) :
    (l.filterMap fun x => if x = k then g x else none) = [] := by
  induction l with
  | nil => rfl
  | cons a l ih =>
    have ha : a ≠ k := by
      rintro rfl
      exact hk (List.mem_cons_self a l)
    have htail := ih fun hmem => hk (List.mem_cons_of_mem a hmem)
    simp [List.filterMap_cons, ha, htail]

lemma filterMap_if_single {α β : Type} [DecidableEq α] (l : List α) (k : α)
    (g : α → Option β) (hnd : l.Nodup) (hk : k ∈ l) :
    (l.filterMap fun x => if x = k then g x else none) = (g k).toList := by
  induction l with
  | nil => cases hk
  | cons a l ih =>
    rcases List.mem_cons.mp hk with rfl | hk2
    · have hnotmem : k ∉ l := (List.nodup_cons.mp hnd).1
      have htail := filterMap_if_not_mem l k g hnotmem
      cases hg : g k <;> simp [List.filterMap_cons, hg, htail, Option.toList]
    · have ha : a ≠ k := by
        rintro rfl
        exact (List.nodup_cons.mp hnd).1 hk2
      have htail := ih (List.nodup_cons.mp hnd).2 hk2
      simp [List.filterMap_cons, ha, htail]

/-- C6 (amended): for every `(contract, slot_key)` group of a block's
deltas whose drift score exceeds the 0.7 anomaly threshold, exactly one
`SlotDriftEvent` is emitted among the block's events, with
`predicted_block = current_block + 10` and `confidence` equal to the drift
score; when at least 3 observations are cached for the key, its predicted
value is the specification's extrapolation
`latest + (latest - oldest_of_last_10) * 0.1` computed over the low 64 bits
(`H256::low_u64`) of the last 10 cached observations, clamped below at zero
and truncated by the `f64 → u64` cast; groups at or below the threshold
emit no event. -/
theorem drift_event_emission_spec (deltas : List StorageDelta) (blk now : ℕ) (cache : Cache)
    (c : ℕ) (s : SlotKey)
    (hk : (c, s) ∈ (deltas.map key_of).dedup) :
    (calculate_drift_score (deltas.filter fun d => key_of d = (c, s))
        (get_slot_history cache c s) ≤ 0.7 →
      (detect_drift_events deltas blk cache now 0.7).filter
        (fun e => e.contract = c ∧ e.slot_key = s) = [])
    ∧ (0.7 < calculate_drift_score (deltas.filter fun d => key_of d = (c, s))
        (get_slot_history cache c s) →
      ∃ e, (detect_drift_events deltas blk cache now 0.7).filter
          (fun e => e.contract = c ∧ e.slot_key = s) = [e]
        ∧ e.predicted_block = blk + 10
        ∧ e.current_block = blk
        ∧ e.confidence = calculate_drift_score (deltas.filter fun d => key_of d = (c, s))
            (get_slot_history cache c s)
        ∧ (3 ≤ (get_slot_history cache c s).length →
            e.predicted_value =
              f64_as_u64 (max (spec_prediction
                ((get_slot_history cache c s).map fun v => v % 2 ^ 64)) 0))) := by
  have hdetect : detect_drift_events deltas blk cache now (0.7 : ℝ) =
      ((deltas.map key_of).dedup).filterMap (fun k =>
        if (0.7 : ℝ) < calculate_drift_score (deltas.filter fun d => key_of d = k)
            (get_slot_history cache k.1 k.2) then
          some { chain := "ethereum"
                 contract := k.1
                 slot_key := k.2
                 current_value := (((deltas.filter fun d => key_of d = k).getLast?).map
                   StorageDelta.new_value).getD 0
                 predicted_value := predict_future_value cache k.1 k.2
                 current_block := blk
                 predicted_block := blk + 10
                 timestamp := now
                 confidence := calculate_drift_score (deltas.filter fun d => key_of d = k)
                   (get_slot_history cache k.1 k.2) }
        else none) := rfl
  have hmain : (detect_drift_events deltas blk cache now 0.7).filter
      (fun e => e.contract = c ∧ e.slot_key = s) =
      ((if (0.7 : ℝ) < calculate_drift_score (deltas.filter fun d => key_of d = (c, s))
          (get_slot_history cache c s) then
        some { chain := "ethereum"
               contract := c
               slot_key := s
               current_value := (((deltas.filter fun d => key_of d = (c, s)).getLast?).map
                 StorageDelta.new_value).getD 0
               predicted_value := predict_future_value cache c s
               current_block := blk
               predicted_block := blk + 10
               timestamp := now
               confidence := calculate_drift_score (deltas.filter fun d => key_of d = (c, s))
                 (get_slot_history cache c s) }
      else none : Option SlotDriftEvent).toList) := by
    rw [hdetect, List.filter_filterMap]
    have hcong : ∀ k ∈ (deltas.map key_of).dedup,
        ((if (0.7 : ℝ) < calculate_drift_score (deltas.filter fun d => key_of d = k)
            (get_slot_history cache k.1 k.2) then
          some { chain := "ethereum"
                 contract := k.1
                 slot_key := k.2
                 current_value := (((deltas.filter fun d => key_of d = k).getLast?).map
                   StorageDelta.new_value).getD 0
                 predicted_value := predict_future_value cache k.1 k.2
                 current_block := blk
                 predicted_block := blk + 10
                 timestamp := now
                 confidence := calculate_drift_score (deltas.filter fun d => key_of d = k)
                   (get_slot_history cache k.1 k.2) }
        else none : Option SlotDriftEvent).filter
          (fun e => decide (e.contract = c ∧ e.slot_key = s))) =
        (if k = (c, s) then
          (if (0.7 : ℝ) < calculate_drift_score (deltas.filter fun d => key_of d = k)
              (get_slot_history cache k.1 k.2) then
            some { chain := "ethereum"
                   contract := k.1
                   slot_key := k.2
                   current_value := (((deltas.filter fun d => key_of d = k).getLast?).map
                     StorageDelta.new_value).getD 0
                   predicted_value := predict_future_value cache k.1 k.2
                   current_block := blk
                   predicted_block := blk + 10
                   timestamp := now
                   confidence := calculate_drift_score (deltas.filter fun d => key_of d = k)
                     (get_slot_history cache k.1 k.2) }
          else none)
        else none) := by
      intro k hkmem
      by_cases hsc : (0.7 : ℝ) < calculate_drift_score (deltas.filter fun d => key_of d = k)
          (get_slot_history cache k.1 k.2)
      · rw [if_pos hsc]
        by_cases hkc : k = (c, s)
        · subst hkc
          rw [if_pos rfl]
          simp [Option.filter]
        · rw [if_neg hkc]
          have hne : ¬ (k.1 = c ∧ k.2 = s) := by
            rintro ⟨h1, h2⟩
            exact hkc (Prod.ext h1 h2)
          simp [Option.filter, hne]
      · rw [if_neg hsc]
        simp [Option.filter]
    rw [List.filterMap_congr hcong]
    exact filterMap_if_single _ _ _ (List.nodup_dedup _) hk
  constructor
  · intro hle
    rw [hmain, if_neg (not_lt.mpr hle)]
    rfl
  · intro hgt
    refine ⟨{ chain := "ethereum"
              contract := c
              slot_key := s
              current_value := (((deltas.filter fun d => key_of d = (c, s)).getLast?).map
                StorageDelta.new_value).getD 0
              predicted_value := predict_future_value cache c s
              current_block := blk
              predicted_block := blk + 10
              timestamp := now
              confidence := calculate_drift_score (deltas.filter fun d => key_of d = (c, s))
                (get_slot_history cache c s) }, ?_, rfl, rfl, rfl, ?_⟩
    · rw [hmain, if_pos hgt]
      rfl
    · intro h3
      exact predict_future_value_spec cache c s h3


/-- Witness for C6's amended statement: a single delta of impact 1/2 with
an empty history scores 0 ≤ 0.7, so its group emits no event. -/
theorem drift_event_emission_spec_witness :
    ((1, SlotKey.Custom 0) ∈ (([halfImpactDelta] : List StorageDelta).map key_of).dedup) ∧
    ((calculate_drift_score (([halfImpactDelta] : List StorageDelta).filter
          fun d => key_of d = (1, SlotKey.Custom 0))
        (get_slot_history emptyCache 1 (SlotKey.Custom 0)) ≤ 0.7 →
      (detect_drift_events [halfImpactDelta] 5 emptyCache 0 0.7).filter
        (fun e => e.contract = 1 ∧ e.slot_key = SlotKey.Custom 0) = [])
    ∧ (0.7 < calculate_drift_score (([halfImpactDelta] : List StorageDelta).filter
          fun d => key_of d = (1, SlotKey.Custom 0))
        (get_slot_history emptyCache 1 (SlotKey.Custom 0)) →
      ∃ e, (detect_drift_events [halfImpactDelta] 5 emptyCache 0 0.7).filter
          (fun e => e.contract = 1 ∧ e.slot_key = SlotKey.Custom 0) = [e]
        ∧ e.predicted_block = 5 + 10
        ∧ e.current_block = 5
        ∧ e.confidence = calculate_drift_score (([halfImpactDelta] : List StorageDelta).filter
            fun d => key_of d = (1, SlotKey.Custom 0))
            (get_slot_history emptyCache 1 (SlotKey.Custom 0))
        ∧ (3 ≤ (get_slot_history emptyCache 1 (SlotKey.Custom 0)).length →
            e.predicted_value =
              f64_as_u64 (max (spec_prediction ((get_slot_history emptyCache 1
                (SlotKey.Custom 0)).map fun v => v % 2 ^ 64)) 0)))) :=
  ⟨by decide,
    drift_event_emission_spec [halfImpactDelta] 5 0 emptyCache 1 (SlotKey.Custom 0)
      (by decide)⟩

lemma wrap_history_eval :
    get_slot_history wrapCache 1 (SlotKey.Reserves 8) = wrapHistoryList := by decide

lemma volatile_volatility_eval :
    calculate_volatility [0, 0, 0, 0, 0, 0, 2, 2, 2, 2, 2, 2] = 1 := by
  simp only [calculate_volatility]
  rw [if_neg (by norm_num)]
  have hm : (([0, 0, 0, 0, 0, 0, 2, 2, 2, 2, 2, 2] : List ℕ).map
      fun h => ((h % 2 ^ 64 : ℕ) : ℝ)) =
      [0, 0, 0, 0, 0, 0, 2, 2, 2, 2, 2, 2] := by norm_num
  rw [hm]
  norm_num [List.sum_cons, Real.sqrt_one]

lemma burst_score_eval :
    calculate_drift_score burstDeltas (get_slot_history wrapCache 1 (SlotKey.Reserves 8)) =
      1 := by
  rw [wrap_history_eval]
  have hv : calculate_volatility wrapHistoryList = 1 := by
    have h1 : wrapHistoryList.map (fun v => v % 2 ^ 64) =
        [0, 0, 0, 0, 0, 0, 2, 2, 2, 2, 2, 2] := by decide
    rw [← calculate_volatility_mod wrapHistoryList, h1]
    exact volatile_volatility_eval
  simp only [calculate_drift_score]
  rw [if_neg (by decide)]
  have hmap : burstDeltas.map (fun c => ((c.impact_score : ℚ) : ℝ)) = [1, 1, 1, 1] := by
    norm_num [burstDeltas, burstDelta]
  rw [if_pos (by decide : 3 < burstDeltas.length)]
  rw [if_pos (by decide : 10 < wrapHistoryList.length)]
  rw [hmap, hv]
  have hlen : (burstDeltas.length : ℝ) = 4 := by norm_num [burstDeltas]
  rw [hlen]
  norm_num

lemma burst_prediction_eval :
    predict_future_value wrapCache 1 (SlotKey.Reserves 8) = 2 := by
  simp only [predict_future_value]
  rw [wrap_history_eval]
  rw [if_neg (by decide : ¬ (wrapHistoryList.length < 3))]
  have hrev : wrapHistoryList.reverse.take 10 =
      [2 ^ 64 + 2, 2 ^ 64 + 2, 2 ^ 64 + 2, 2 ^ 64 + 2, 2 ^ 64 + 2, 2 ^ 64 + 2,
        2 ^ 64, 2 ^ 64, 2 ^ 64, 2 ^ 64] := by decide
  rw [hrev]
  have hlen : (([2 ^ 64 + 2, 2 ^ 64 + 2, 2 ^ 64 + 2, 2 ^ 64 + 2, 2 ^ 64 + 2, 2 ^ 64 + 2,
      2 ^ 64, 2 ^ 64, 2 ^ 64, 2 ^ 64] : List ℕ).map
      fun h => ((h % 2 ^ 64 : ℕ) : ℚ)).length = 10 := by
    rw [List.length_map]
    decide
  rw [if_neg (by rw [hlen]; norm_num), hlen]
  rw [getD_map_lt _ _ 0 (by decide) 0 0, getD_map_lt _ _ (10 - 1) (by decide) 0 0]
  have e1 : ([2 ^ 64 + 2, 2 ^ 64 + 2, 2 ^ 64 + 2, 2 ^ 64 + 2, 2 ^ 64 + 2, 2 ^ 64 + 2,
      2 ^ 64, 2 ^ 64, 2 ^ 64, 2 ^ 64] : List ℕ).getD 0 0 = 2 ^ 64 + 2 := by decide
  have e2 : ([2 ^ 64 + 2, 2 ^ 64 + 2, 2 ^ 64 + 2, 2 ^ 64 + 2, 2 ^ 64 + 2, 2 ^ 64 + 2,
      2 ^ 64, 2 ^ 64, 2 ^ 64, 2 ^ 64] : List ℕ).getD (10 - 1) 0 = 2 ^ 64 := by decide
  rw [e1, e2]
  have hq : (((2 ^ 64 + 2) % 2 ^ 64 : ℕ) : ℚ) +
      ((((2 ^ 64 + 2) % 2 ^ 64 : ℕ) : ℚ) - ((2 ^ 64 % 2 ^ 64 : ℕ) : ℚ)) * 0.1 = 11 / 5 := by
    norm_num
  rw [hq, max_eq_left (by norm_num : (0 : ℚ) ≤ 11 / 5)]
  simp only [f64_as_u64]
  rw [if_neg (by norm_num : ¬ ((11 / 5 : ℚ) < 0))]
  have hfl : ⌊(11 / 5 : ℚ)⌋ = 2 := by
    rw [Int.floor_eq_iff]
    constructor <;> norm_num
  rw [hfl]
  norm_num
  rfl

lemma wrap_spec_prediction_eval : spec_prediction wrapHistoryList = 2 ^ 64 + 11 / 5 := by
  simp only [spec_prediction]
  have hdrop : wrapHistoryList.drop (wrapHistoryList.length - 10) =
      [2 ^ 64, 2 ^ 64, 2 ^ 64, 2 ^ 64, 2 ^ 64 + 2, 2 ^ 64 + 2, 2 ^ 64 + 2, 2 ^ 64 + 2,
        2 ^ 64 + 2, 2 ^ 64 + 2] := by decide
  rw [hdrop]
  have e1 : ([2 ^ 64, 2 ^ 64, 2 ^ 64, 2 ^ 64, 2 ^ 64 + 2, 2 ^ 64 + 2, 2 ^ 64 + 2, 2 ^ 64 + 2,
      2 ^ 64 + 2, 2 ^ 64 + 2] : List ℕ).getD
      (([2 ^ 64, 2 ^ 64, 2 ^ 64, 2 ^ 64, 2 ^ 64 + 2, 2 ^ 64 + 2, 2 ^ 64 + 2, 2 ^ 64 + 2,
        2 ^ 64 + 2, 2 ^ 64 + 2] : List ℕ).length - 1) 0 = 2 ^ 64 + 2 := by decide
  have e2 : ([2 ^ 64, 2 ^ 64, 2 ^ 64, 2 ^ 64, 2 ^ 64 + 2, 2 ^ 64 + 2, 2 ^ 64 + 2, 2 ^ 64 + 2,
      2 ^ 64 + 2, 2 ^ 64 + 2] : List ℕ).getD 0 0 = 2 ^ 64 := by decide
  rw [e1, e2]
  push_cast
  ring

/-- Counterexample for C6 as stated: in a qualifying group whose cached
history is six `2^64`s then six `2^64 + 2`s, the emitted event's predicted
value is 2 — the code extrapolates over `H256::low_u64` of the observations
(six 0s then six 2s, giving 2.2) and truncates through an `f64 → u64` cast
— while the claimed formula over the cached values gives `2^64 + 2.2`, and
even its `u64` truncation is `2^64 - 1`, not 2. -/
theorem drift_event_counterexample :
    (detect_drift_events burstDeltas 50 wrapCache 0 0.7).map SlotDriftEvent.predicted_value
        = [2]
    ∧ ¬ ((2 : ℚ) = spec_prediction (get_slot_history wrapCache 1 (SlotKey.Reserves 8)))
    ∧ f64_as_u64 (max (spec_prediction (get_slot_history wrapCache 1 (SlotKey.Reserves 8))) 0)
        ≠ 2 := by
  refine ⟨?_, ?_, ?_⟩
  · have hkeys : (burstDeltas.map key_of).dedup = [(1, SlotKey.Reserves 8)] := by decide
    have hchanges : burstDeltas.filter (fun d => key_of d = (1, SlotKey.Reserves 8)) =
        burstDeltas := by simp [burstDeltas, burstDelta, key_of]
    simp only [detect_drift_events, hkeys, List.filterMap_cons, List.filterMap_nil]
    rw [hchanges]
    rw [if_pos (by rw [burst_score_eval]; norm_num)]
    simp only [List.map_cons, List.map_nil]
    rw [burst_prediction_eval]
  · rw [wrap_history_eval, wrap_spec_prediction_eval]
    norm_num
  · rw [wrap_history_eval, wrap_spec_prediction_eval]
    rw [max_eq_left (by norm_num : (0 : ℚ) ≤ 2 ^ 64 + 11 / 5)]
    simp only [f64_as_u64]
    rw [if_neg (by norm_num : ¬ ((2 ^ 64 + 11 / 5 : ℚ) < 0))]
    have hfl : ⌊(2 ^ 64 + 11 / 5 : ℚ)⌋ = 2 ^ 64 + 2 := by
      rw [Int.floor_eq_iff]
      constructor <;> norm_num
    rw [hfl]
    have ht : Int.toNat (2 ^ 64 + 2) = 2 ^ 64 + 2 := by decide
    rw [ht]
    decide


end RustMarathon
